import Mathlib

/-!
# Verification of the feed-ingestion core of mangatrack

Shallow embedding, in Lean 4, of the ingestion-and-reconciliation engine:

* the watermark update path of `feed-ingest.processor.ts`
  (`ingestMangaDexChapters` / `ingestMangaUpdatesReleases`): the per-call
  read of `series.last_chapter_released_at`, the `shouldUpdate` test and the
  atomic `UPDATE ... SET last_chapter_released_at = GREATEST(...)` statement,
  modelled as a two-step (read / atomic-max write) transition system so that
  arbitrary interleavings of concurrent advance calls can be analysed;
* the full `processFeedIngest` orchestration (backpressure gate, run record
  creation and finalisation, the MangaDex and MangaUpdates ingest loops,
  duplicate-event classification);
* `performOnDemandSync` (advisory lock, re-check under the lock, scrape,
  guaranteed lock release), plus a small two-process machine for the
  advisory-lock exclusivity argument;
* the DLQ alerting cooldown of `monitoring.ts`;
* the `BoundedRateLimitStore` of the middleware.

Timestamps (JS `Date` values, i.e. milliseconds since the epoch) are
modelled as `Nat`; nullable columns as `Option`; JS exceptions as `Except`.
-/

/-! ## Timeline Reconciler: the watermark update path

Each advance call in `ingestMangaDexChapters` (lines 128-184) performs, for
one candidate timestamp `t`:

1. a read of `series.last_chapter_released_at` (the `findUnique` select);
2. the test `shouldUpdate = !last || t > last`;
3. if `shouldUpdate`, the single atomic SQL statement
   `UPDATE series SET last_chapter_released_at =
      GREATEST(COALESCE(last_chapter_released_at, epoch), t)
    WHERE id = ... AND deleted_at IS NULL`,
   which maxes against the *current* column value, with the soft-delete
   guard inside the statement.

`ingestMangaUpdatesReleases` (lines 245-285) has the identical shape (its
read is the `include: series` on the query).  We model an execution of `n`
concurrent advance calls as an interleaving of atomic `read i` / `write i`
actions over a shared state. -/

inductive WAction (n : Nat) where
  | read (i : Fin n)
  | write (i : Fin n)
deriving DecidableEq

structure WState (n : Nat) where
  /-- `series.last_chapter_released_at`; `none` is SQL NULL. -/
  watermark : Option Nat
  /-- whether `deleted_at IS NOT NULL` for this series. -/
  deleted : Bool
  /-- the value captured by call `i`'s select, once its read has executed. -/
  readv : Fin n → Option (Option Nat)

/-- One atomic action of the watermark update path.  `read i` captures the
current column value for call `i`; `write i` evaluates `shouldUpdate`
against the captured value and, if it holds, executes the atomic
`GREATEST` update (a no-op on a soft-deleted row). -/
def wstep {n : Nat} (t : Fin n → Nat) (s : WState n) : WAction n → WState n
  | .read i => { s with readv := Function.update s.readv i (some s.watermark) }
  | .write i =>
    match s.readv i with
    | none => s
    | some r =>
      let shouldUpdate := match r with
        | none => true
        | some v => decide (v < t i)
      if shouldUpdate && !s.deleted then
        { s with watermark := some (max (s.watermark.getD 0) (t i)) }
      else s

def wrun {n : Nat} (t : Fin n → Nat) (s : WState n) (tr : List (WAction n)) : WState n :=
  tr.foldl (wstep t) s

def winit (n : Nat) (prior : Option Nat) (deleted : Bool) : WState n :=
  { watermark := prior, deleted := deleted, readv := fun _ => none }

/-- A trace is well formed when every call's write is executed and is
preceded by that call's read (each advance reads before it writes). -/
def wfTrace {n : Nat} (tr : List (WAction n)) : Prop :=
  ∀ i : Fin n, ∃ pre post, tr = pre ++ WAction.write i :: post ∧ WAction.read i ∈ pre

/-- `none`-as-bottom order on the watermark column: the watermark `b` is at
least `a` when its `COALESCE(_, 0)` value is and it is non-NULL whenever
`a` is. -/
def owle (a b : Option Nat) : Prop :=
  a.getD 0 ≤ b.getD 0 ∧ (a.isSome = true → b.isSome = true)

instance (a b : Option Nat) : Decidable (owle a b) := by
  unfold owle; infer_instance

theorem owle_refl (a : Option Nat) : owle a a := ⟨le_refl _, fun h => h⟩

theorem owle_trans {a b c : Option Nat} (h1 : owle a b) (h2 : owle b c) : owle a c :=
  ⟨le_trans h1.1 h2.1, fun h => h2.2 (h1.2 h)⟩

/-- A single step never lowers the watermark: the write is a `GREATEST`
against the current value. -/
theorem wstep_mono {n : Nat} (t : Fin n → Nat) (s : WState n) (a : WAction n) :
    owle s.watermark (wstep t s a).watermark := by
  cases a with
  | read i => simp only [wstep]; exact owle_refl _
  | write i =>
    simp only [wstep]
    cases h : s.readv i with
    | none => exact owle_refl _
    | some r =>
      simp only
      split
      · refine ⟨le_max_left _ _, fun _ => rfl⟩
      · exact owle_refl _

theorem wrun_mono {n : Nat} (t : Fin n → Nat) (s : WState n) (tr : List (WAction n)) :
    owle s.watermark (wrun t s tr).watermark := by
  induction tr generalizing s with
  | nil => exact owle_refl _
  | cons a tr ih => exact owle_trans (wstep_mono t s a) (ih (wstep t s a))

/-- Steps never change the soft-delete flag. -/
theorem wstep_deleted {n : Nat} (t : Fin n → Nat) (s : WState n) (a : WAction n) :
    (wstep t s a).deleted = s.deleted := by
  cases a with
  | read i => simp only [wstep]
  | write i =>
    simp only [wstep]
    cases s.readv i with
    | none => rfl
    | some r => simp only; split <;> rfl

theorem wrun_deleted {n : Nat} (t : Fin n → Nat) (s : WState n) (tr : List (WAction n)) :
    (wrun t s tr).deleted = s.deleted := by
  induction tr generalizing s with
  | nil => rfl
  | cons a tr ih => rw [wrun, List.foldl_cons, ← wrun, ih, wstep_deleted]

/-- On a soft-deleted series no step changes the watermark: the atomic
update carries `deleted_at IS NULL` in its WHERE clause. -/
theorem wstep_deleted_frozen {n : Nat} (t : Fin n → Nat) (s : WState n) (a : WAction n)
    (hd : s.deleted = true) : (wstep t s a).watermark = s.watermark := by
  cases a with
  | read i => simp only [wstep]
  | write i =>
    simp only [wstep]
    cases s.readv i with
    | none => rfl
    | some r =>
      simp only
      split
      · rename_i hcond; rw [hd] at hcond; simp at hcond
      · rfl

theorem wrun_deleted_frozen {n : Nat} (t : Fin n → Nat) (s : WState n) (tr : List (WAction n))
    (hd : s.deleted = true) : (wrun t s tr).watermark = s.watermark := by
  induction tr generalizing s with
  | nil => rfl
  | cons a tr ih =>
    rw [wrun, List.foldl_cons, ← wrun, ih, wstep_deleted_frozen t s a hd]
    rw [wstep_deleted, hd]

/-- The `write` action never touches the captured read values. -/
theorem wstep_write_readv {n : Nat} (t : Fin n → Nat) (s : WState n) (i : Fin n) :
    (wstep t s (WAction.write i)).readv = s.readv := by
  simp only [wstep]
  cases s.readv i with
  | none => rfl
  | some r => simp only; split <;> rfl

/-- Every value captured by a select is below the current column value
(reads capture the then-current watermark, and the watermark only grows). -/
def goodReads {n : Nat} (s : WState n) : Prop :=
  ∀ i r, s.readv i = some r → owle r s.watermark

theorem wstep_goodReads {n : Nat} (t : Fin n → Nat) (s : WState n) (a : WAction n)
    (hg : goodReads s) : goodReads (wstep t s a) := by
  cases a with
  | read j =>
    intro i r hr
    simp only [wstep] at hr ⊢
    by_cases hij : i = j
    · subst hij
      rw [Function.update_same] at hr
      cases hr
      exact owle_refl _
    · rw [Function.update_noteq hij] at hr
      exact hg i r hr
  | write j =>
    intro i r hr
    rw [wstep_write_readv] at hr
    exact owle_trans (hg i r hr) (wstep_mono t s (WAction.write j))

theorem wrun_goodReads {n : Nat} (t : Fin n → Nat) (s : WState n) (tr : List (WAction n))
    (hg : goodReads s) : goodReads (wrun t s tr) := by
  induction tr generalizing s with
  | nil => exact hg
  | cons a tr ih => exact ih (wstep t s a) (wstep_goodReads t s a hg)

/-- Upper bound: the watermark only ever takes values below the max of the
prior value and the candidate timestamps. -/
theorem wstep_ub {n : Nat} (t : Fin n → Nat) (s : WState n) (a : WAction n) (T : Nat)
    (hT : ∀ i, t i ≤ T) (hs : s.watermark.getD 0 ≤ T) :
    (wstep t s a).watermark.getD 0 ≤ T := by
  cases a with
  | read i => simpa [wstep] using hs
  | write i =>
    simp only [wstep]
    cases s.readv i with
    | none => exact hs
    | some r =>
      simp only
      split
      · simpa using ⟨hs, hT i⟩
      · exact hs

theorem wrun_ub {n : Nat} (t : Fin n → Nat) (s : WState n) (tr : List (WAction n)) (T : Nat)
    (hT : ∀ i, t i ≤ T) (hs : s.watermark.getD 0 ≤ T) :
    (wrun t s tr).watermark.getD 0 ≤ T := by
  induction tr generalizing s with
  | nil => exact hs
  | cons a tr ih => exact ih (wstep t s a) (wstep_ub t s a T hT hs)

/-- Once call `i`'s read has executed it stays executed. -/
theorem wstep_readv_isSome {n : Nat} (t : Fin n → Nat) (s : WState n) (a : WAction n) (i : Fin n)
    (h : (s.readv i).isSome = true) : ((wstep t s a).readv i).isSome = true := by
  cases a with
  | read j =>
    simp only [wstep]
    by_cases hij : i = j
    · subst hij; rw [Function.update_same]; rfl
    · rw [Function.update_noteq hij]; exact h
  | write j => rw [wstep_write_readv]; exact h

theorem wrun_readv_isSome {n : Nat} (t : Fin n → Nat) (s : WState n) (tr : List (WAction n))
    (i : Fin n) (h : (s.readv i).isSome = true) : ((wrun t s tr).readv i).isSome = true := by
  induction tr generalizing s with
  | nil => exact h
  | cons a tr ih => exact ih (wstep t s a) (wstep_readv_isSome t s a i h)

/-- If a trace contains call `i`'s read then afterwards its captured value
is present. -/
theorem wrun_read_mem_isSome {n : Nat} (t : Fin n → Nat) (s : WState n) (tr : List (WAction n))
    (i : Fin n) (h : WAction.read i ∈ tr) : ((wrun t s tr).readv i).isSome = true := by
  induction tr generalizing s with
  | nil => cases h
  | cons a tr ih =>
    rcases List.mem_cons.mp h with h1 | h2
    · subst h1
      exact wrun_readv_isSome t _ tr i (by simp [wstep, Function.update_same])
    · exact ih (wstep t s a) h2

/-- After call `i`'s write executes on a live series, the watermark is at
least `t i`: either `shouldUpdate` held and the atomic `GREATEST` ran, or
the captured value already dominated `t i` and the current value dominates
the captured one. -/
theorem wstep_write_lb {n : Nat} (t : Fin n → Nat) (s : WState n) (i : Fin n)
    (hg : goodReads s) (hr : (s.readv i).isSome = true) (hd : s.deleted = false) :
    owle (some (t i)) ((wstep t s (WAction.write i)).watermark) := by
  simp only [wstep]
  cases hrv : s.readv i with
  | none => rw [hrv] at hr; cases hr
  | some r =>
    simp only [hd]
    cases r with
    | none =>
      simp only [Bool.and_true, Bool.not_false]
      constructor
      · simp [le_max_right]
      · intro _; rfl
    | some v =>
      by_cases hlt : v < t i
      · rw [if_pos (by simp [hlt])]
        exact ⟨by simp [le_max_right], fun _ => rfl⟩
      · rw [if_neg (by simp [hlt])]
        have hvle := hg i (some v) hrv
        refine ⟨?_, fun _ => hvle.2 rfl⟩
        calc t i ≤ v := Nat.le_of_not_lt hlt
          _ ≤ s.watermark.getD 0 := by simpa using hvle.1

/-- Decomposition of a run around one action. -/
theorem wrun_append_cons {n : Nat} (t : Fin n → Nat) (s : WState n)
    (pre : List (WAction n)) (a : WAction n) (post : List (WAction n)) :
    wrun t s (pre ++ a :: post) = wrun t (wstep t (wrun t s pre) a) post := by
  simp [wrun, List.foldl_append]

/-- In a well-formed trace the final watermark dominates every candidate
timestamp. -/
theorem wrun_lb {n : Nat} (t : Fin n → Nat) (prior : Option Nat) (tr : List (WAction n))
    (hwf : wfTrace tr) (i : Fin n) :
    owle (some (t i)) ((wrun t (winit n prior false) tr).watermark) := by
  obtain ⟨pre, post, hdec, hmem⟩ := hwf i
  subst hdec
  rw [wrun_append_cons]
  set s1 := wrun t (winit n prior false) pre with hs1
  have hg : goodReads s1 := wrun_goodReads t _ pre (by intro j r hr; cases hr)
  have hrd : (s1.readv i).isSome = true := wrun_read_mem_isSome t _ pre i hmem
  have hdel : s1.deleted = false := by rw [hs1, wrun_deleted]; rfl
  have hlb := wstep_write_lb t s1 i hg hrd hdel
  exact owle_trans hlb (wrun_mono t _ post)

/-- **C1.** For every series, for any set of advance calls with candidate
timestamps `t 0 .. t (n-1)` executed in any interleaving of the processor's
watermark update path:
(1) the final `last_chapter_released_at` equals
    `max(priorValue, t 0, .., t (n-1))` (a NULL prior is the epoch floor,
    per the `COALESCE`);
(2) the watermark never decreases at any step; and
(3) a soft-deleted series is never updated.
The update itself is the one atomic `GREATEST` statement of `wstep`, never
a read-then-write pair: property (1) holds for every interleaving of the
reads and writes precisely because the write maxes against the current
column value. -/
theorem feedIngest_watermark_atomic_max {n : Nat} (t : Fin n → Nat) (prior : Option Nat)
    (tr : List (WAction n)) :
    (wfTrace tr → 0 < n →
      (wrun t (winit n prior false) tr).watermark
        = some (max (prior.getD 0) (Finset.univ.sup t)))
    ∧ (∀ (s : WState n) (a : WAction n), owle s.watermark (wstep t s a).watermark)
    ∧ (∀ s : WState n, s.deleted = true → (wrun t s tr).watermark = s.watermark) := by
  refine ⟨?_, fun s a => wstep_mono t s a, fun s hd => wrun_deleted_frozen t s tr hd⟩
  intro hwf hn
  have hub : (wrun t (winit n prior false) tr).watermark.getD 0
      ≤ max (prior.getD 0) (Finset.univ.sup t) := by
    refine wrun_ub t _ tr _ ?_ ?_
    · intro i
      exact le_max_of_le_right (Finset.le_sup (Finset.mem_univ i))
    · exact le_max_left _ _
  have hprior := wrun_mono t (winit n prior false) tr
  have hlb : ∀ i : Fin n, owle (some (t i)) ((wrun t (winit n prior false) tr).watermark) :=
    fun i => wrun_lb t prior tr hwf i
  have hsome : ((wrun t (winit n prior false) tr).watermark).isSome = true :=
    (hlb ⟨0, hn⟩).2 rfl
  obtain ⟨w, hw⟩ := Option.isSome_iff_exists.mp hsome
  rw [hw]
  refine congrArg some (le_antisymm ?_ ?_)
  · simpa [hw] using hub
  · refine max_le ?_ (Finset.sup_le fun i _ => ?_)
    · have h1 := hprior.1
      rw [hw] at h1
      exact h1
    · have h2 := (hlb i).1
      simpa [hw] using h2

/-- Witness for C1: two concurrent advances with timestamps 3 and 5 over a
prior watermark of 4, interleaved read-read-write-write, end at
`max(4, 3, 5) = 5`. -/
theorem feedIngest_watermark_atomic_max_witness :
    (wrun (fun i : Fin 2 => if i = 0 then 3 else 5) (winit 2 (some 4) false)
      [WAction.read 0, WAction.read 1, WAction.write 1, WAction.write 0]).watermark
      = some (max ((some 4 : Option Nat).getD 0)
          (Finset.univ.sup (fun i : Fin 2 => if i = 0 then 3 else 5))) := by
  refine (feedIngest_watermark_atomic_max (fun i : Fin 2 => if i = 0 then 3 else 5) (some 4)
    [WAction.read 0, WAction.read 1, WAction.write 1, WAction.write 0]).1 ?_ (by decide)
  intro i
  fin_cases i
  · exact ⟨[WAction.read 0, WAction.read 1, WAction.write 1], [], rfl, by decide⟩
  · exact ⟨[WAction.read 0, WAction.read 1], [WAction.write 0], rfl, by decide⟩

/-! ## Event Store and Tiered Ingest Scheduler/Processor

Embedding of `feed-ingest.processor.ts`.  `ReleaseEvent` rows
(`chapter_availability_events`) are represented by their idempotency key
`(series_id, chapter_number, source_name, external_event_id)`; the
remaining columns (timestamps, title, raw payload, ...) play no role in
any claim and are elided.  The `Promise.all` over one batch is modelled by
processing observations in order: per-observation effects are contained by
the per-observation `try`/`catch`, so the fold is the sequential projection
of the batch loop. -/

/-- A storage-layer failure as surfaced by the Prisma client: a JS value
that may or may not be an `Error` instance, carrying a message text, and —
at the storage layer — either being a uniqueness-constraint violation or
not.  The code under test sees only `isErrorInstance` and `message`. -/
structure StorageErr where
  isErrorInstance : Bool
  uniqueViolation : Bool
  message : String
deriving DecidableEq, Repr

/-- Substring test on character lists (JS `String.prototype.includes`). -/
def containsSub (needle hay : List Char) : Bool :=
  hay.tails.any (fun t => needle.isPrefixOf t)

/-- The duplicate classification of the processor, lines 186 and 288:
`err instanceof Error && err.message.includes('Unique constraint')`. -/
def classifyAsDuplicate (e : StorageErr) : Bool :=
  e.isErrorInstance && containsSub "Unique constraint".data e.message.data

/-- Modelled from the spec: §4.2 and §9 require the `Duplicate` case to be
recognised "by inspecting the failure class, not by string-matching an
error message", i.e. by the storage layer's typed constraint-violation
variant.  This classifier is the spec's words, for comparison with
`classifyAsDuplicate` (the code's classifier). -/
def specClassifyAsDuplicate (e : StorageErr) : Bool :=
  e.uniqueViolation

/-- The error the storage layer raises on an idempotency-key collision
(Prisma's unique-constraint violation: an `Error` instance whose message
carries the constraint text). -/
def uniqueViolationErr : StorageErr :=
  { isErrorInstance := true
    uniqueViolation := true
    message := "Unique constraint failed on the fields: (series_id,chapter_number,source_name,external_event_id)" }

structure EventKey where
  series_id : String
  chapter_number : String
  source_name : String
  external_event_id : String
deriving DecidableEq, Repr

structure SeriesRow where
  sid : String
  mangadex_id : Option String
  last_chapter_released_at : Option Nat
  deleted_at : Option Nat
deriving DecidableEq, Repr

inductive RunStatus where
  | running
  | completed
  | failed
deriving DecidableEq, Repr

structure RunRow where
  rid : Nat
  status : RunStatus
  events_fetched : Nat
  events_created : Nat
  events_skipped : Nat
  series_updated : Nat
  error_count : Nat
  rate_limit_hits : Nat
  error_message : Option String
deriving DecidableEq, Repr

structure DB where
  series : List SeriesRow
  events : List EventKey
  runs : List RunRow
deriving DecidableEq, Repr

/-- `prisma.chapterAvailabilityEvent.create`: insert, or raise the
uniqueness violation when the idempotency key already has a row. -/
def createEvent (db : DB) (k : EventKey) : Except StorageErr DB :=
  if k ∈ db.events then .error uniqueViolationErr
  else .ok { db with events := db.events ++ [k] }

/-- The atomic watermark statement of lines 174-182 and 276-284, as it acts
on the sequential database state:
`UPDATE series SET last_chapter_released_at = GREATEST(COALESCE(.., epoch), ts)
 WHERE id = sid AND deleted_at IS NULL`. -/
def advanceWatermark (db : DB) (sid : String) (ts : Nat) : DB :=
  { db with series := db.series.map (fun r =>
      if r.sid = sid ∧ r.deleted_at = none then
        { r with last_chapter_released_at := some (max (r.last_chapter_released_at.getD 0) ts) }
      else r) }

/-- The mutable per-run counter object of the processors. -/
structure Counters where
  events_fetched : Nat
  events_created : Nat
  events_skipped : Nat
  series_updated : Nat
  errors : Nat
  rate_limit_hits : Nat
deriving DecidableEq, Repr

def zeroCounters : Counters :=
  { events_fetched := 0, events_created := 0, events_skipped := 0
    series_updated := 0, errors := 0, rate_limit_hits := 0 }

/-- One MangaDex chapter object as consumed by the processor: `chapter.id`,
the optional `manga` relationship, `chapter.attributes.chapter`. -/
structure MDChapter where
  chapterId : String
  mangaRel : Option String
  chapterAttr : Option String
deriving DecidableEq, Repr

/-- JS `a || b` on an optional string (both `null` and `""` are falsy). -/
def jsOrStr (o : Option String) (d : String) : String :=
  match o with
  | none => d
  | some "" => d
  | some s => s

/-- Per-chapter body of the batch loop of `ingestMangaDexChapters`
(lines 116-196).  `now` is the `discoveredAt = new Date()` of the call. -/
def processMDChapter (now : Nat) (db : DB) (c : Counters) (ch : MDChapter) : DB × Counters :=
  match ch.mangaRel with
  | none => (db, { c with events_skipped := c.events_skipped + 1 })
  | some mid =>
    match db.series.find? (fun r => r.mangadex_id = some mid) with
    | none => (db, { c with events_skipped := c.events_skipped + 1 })
    | some series =>
      let chapterNumber := jsOrStr ch.chapterAttr "0"
      let k : EventKey := ⟨series.sid, chapterNumber, "mangadex", ch.chapterId⟩
      match createEvent db k with
      | .error e =>
        if classifyAsDuplicate e then
          (db, { c with events_skipped := c.events_skipped + 1 })
        else
          (db, { c with errors := c.errors + 1 })
      | .ok db1 =>
        let c1 := { c with events_created := c.events_created + 1 }
        let shouldUpdate := match series.last_chapter_released_at with
          | none => true
          | some v => decide (v < now)
        if shouldUpdate then
          (advanceWatermark db1 series.sid now,
           { c1 with series_updated := c1.series_updated + 1 })
        else (db1, c1)

/-- Outcome of `mangadexClient.fetchLatestChapters`: a chapter list, a
throttle signal (an `Error` whose message includes `'429'`), or any other
raised error. -/
inductive FetchOutcome where
  | ok (chapters : List MDChapter)
  | rateLimited
  | err (msg : String)
deriving DecidableEq, Repr

/-- `ingestMangaDexChapters` (lines 89-209): fetch, count, batch loop; a
throttle signal increments `rate_limit_hits` and ends the run gracefully;
any other fetch error is re-raised (`.error`). -/
def ingestMangaDexChapters (now : Nat) (fetch : FetchOutcome) (db : DB) :
    Except String (Counters × DB) :=
  match fetch with
  | .ok chapters =>
    let st := chapters.foldl (fun st ch => processMDChapter now st.1 st.2 ch) (db, zeroCounters)
    .ok ({ st.2 with events_fetched := chapters.length }, st.1)
  | .rateLimited => .ok ({ zeroCounters with rate_limit_hits := 1 }, db)
  | .err m => .error m

/-- One `mangaUpdatesRelease` row joined with its series (the
`include: series` select of lines 226-240): the series' id and
`last_chapter_released_at` as read by that query. -/
structure MURelease where
  series : Option (String × Option Nat)
  chapter : Option String
  mangaupdates_release_id : String
  created_at : Nat
deriving DecidableEq, Repr

/-- Per-release body of `ingestMangaUpdatesReleases` (lines 245-295). -/
def processMURelease (db : DB) (c : Counters) (rel : MURelease) : DB × Counters :=
  match rel.series with
  | none => (db, { c with events_skipped := c.events_skipped + 1 })
  | some (sid, lastReleased) =>
    let discoveredAt := rel.created_at
    let k : EventKey := ⟨sid, jsOrStr rel.chapter "0", "mangaupdates", rel.mangaupdates_release_id⟩
    match createEvent db k with
    | .error e =>
      if classifyAsDuplicate e then
        (db, { c with events_skipped := c.events_skipped + 1 })
      else
        (db, { c with errors := c.errors + 1 })
    | .ok db1 =>
      let c1 := { c with events_created := c.events_created + 1 }
      let shouldUpdate := match lastReleased with
        | none => true
        | some v => decide (v < discoveredAt)
      if shouldUpdate then
        (advanceWatermark db1 sid discoveredAt,
         { c1 with series_updated := c1.series_updated + 1 })
      else (db1, c1)

/-- `ingestMangaUpdatesReleases` (lines 211-302): the release query and the
loop sit inside one `try`; a query failure is caught, counted as one error
and never re-raised. -/
def ingestMangaUpdatesReleases (muQuery : Except String (List MURelease)) (db : DB) :
    Except String (Counters × DB) :=
  match muQuery with
  | .error _ => .ok ({ zeroCounters with errors := 1 }, db)
  | .ok releases =>
    let st := releases.foldl (fun st rel => processMURelease st.1 st.2 rel) (db, zeroCounters)
    .ok ({ st.2 with events_fetched := releases.length }, st.1)

/-- `prisma.feedIngestRun.create` (lines 56-65): append a `running` row;
the fresh id is the current number of rows. -/
def createIngestRun (db : DB) : Nat × DB :=
  (db.runs.length,
   { db with runs := db.runs ++
      [{ rid := db.runs.length, status := .running, events_fetched := 0, events_created := 0,
         events_skipped := 0, series_updated := 0, error_count := 0, rate_limit_hits := 0,
         error_message := none }] })

/-- JS truthiness of an optional string: `undefined` and `""` are falsy. -/
def jsTruthyStr (o : Option String) : Bool :=
  match o with
  | none => false
  | some m => !(m == "")

/-- `completeIngestRun` (lines 67-87): the single finalizing update of the
run row.  `status: error ? 'failed' : 'completed'` and
`error_message: error || null` are JS truthiness tests: an empty-string
message is falsy, so it finalizes the run `completed` with a NULL
message. -/
def completeIngestRun (runId : Nat) (c : Counters) (err : Option String) (db : DB) : DB :=
  { db with runs := db.runs.map (fun r =>
      if r.rid = runId then
        { r with
          status := if jsTruthyStr err then .failed else .completed
          events_fetched := c.events_fetched
          events_created := c.events_created
          events_skipped := c.events_skipped
          series_updated := c.series_updated
          error_count := c.errors
          rate_limit_hits := c.rate_limit_hits
          error_message := if jsTruthyStr err then err else none }
      else r) }

/-- The environment of one `processFeedIngest` invocation: the
backpressure monitor's answer (`checkQueueHealth`, lines 51-54), the job's
source argument, the clock, and the outcome each upstream call would
produce. -/
structure PFEnv where
  healthy : Bool
  depth : Nat
  source : String
  now : Nat
  fetchMD : FetchOutcome
  muQuery : Except String (List MURelease)

/-- The job's returned result object (counter fields of
`FeedIngestResult`; `runId = none` models the `''` of the paused path). -/
structure FeedIngestResult where
  counters : Counters
  runId : Option Nat
  paused_due_to_queue_depth : Bool
deriving DecidableEq, Repr

/-- Observable outcome of one `processFeedIngest` invocation: the returned
(or re-raised, `.error`) result, the database, the number of Source
Adapter calls made, and the number of finalizing run updates. -/
structure PFOut where
  result : Except String FeedIngestResult
  db : DB
  adapterCalls : Nat
  finalizes : Nat

/-- `processFeedIngest` (lines 304-367): backpressure gate before any
durable side effect; run creation; dispatch on the source; the `catch`
that finalizes the run as `failed` with the captured message and
re-raises. -/
def processFeedIngest (env : PFEnv) (db : DB) : PFOut :=
  if env.healthy = false then
    { result := .ok { counters := zeroCounters, runId := none, paused_due_to_queue_depth := true }
      db := db, adapterCalls := 0, finalizes := 0 }
  else
    let rd := createIngestRun db
    let runId := rd.1
    let db1 := rd.2
    let branch : Except String (Counters × DB) × Nat :=
      if env.source = "mangadex" then (ingestMangaDexChapters env.now env.fetchMD db1, 1)
      else if env.source = "mangaupdates" then (ingestMangaUpdatesReleases env.muQuery db1, 1)
      else (.error ("Unknown feed source: " ++ env.source), 0)
    match branch with
    | (.ok (c, db2), ac) =>
      { result := .ok { counters := c, runId := some runId, paused_due_to_queue_depth := false }
        db := completeIngestRun runId c none db2
        adapterCalls := ac, finalizes := 1 }
    | (.error m, ac) =>
      { result := .error m
        db := completeIngestRun runId { zeroCounters with errors := 1 } (some m) db1
        adapterCalls := ac, finalizes := 1 }

/-- **C3.** When the Backpressure Monitor reports `healthy = false`, `run`
returns `paused_due_to_queue_depth = true` with all counters zero, creates
no `IngestRun` record (the database is untouched), and makes no Source
Adapter call: the check precedes every durable side effect. -/
theorem processFeedIngest_backpressure_gate (env : PFEnv) (db : DB)
    (h : env.healthy = false) :
    (processFeedIngest env db).result
        = .ok { counters := zeroCounters, runId := none, paused_due_to_queue_depth := true }
      ∧ (processFeedIngest env db).db = db
      ∧ (processFeedIngest env db).adapterCalls = 0 := by
  simp [processFeedIngest, h]

/-- Witness for C3: a concrete overloaded invocation is gated. -/
theorem processFeedIngest_backpressure_gate_witness :
    (processFeedIngest
        { healthy := false, depth := 6000, source := "mangadex", now := 7,
          fetchMD := .ok [], muQuery := .ok [] }
        { series := [], events := [], runs := [] }).result
      = .ok { counters := zeroCounters, runId := none, paused_due_to_queue_depth := true } :=
  (processFeedIngest_backpressure_gate _ _ rfl).1

/-- A successful event insert touches only the event table. -/
theorem createEvent_ok (db : DB) (k : EventKey) (db1 : DB)
    (h : createEvent db k = .ok db1) :
    db1 = { db with events := db.events ++ [k] } ∧ k ∉ db.events := by
  unfold createEvent at h
  split at h
  · cases h
  · cases h
    exact ⟨rfl, by assumption⟩

/-- An insert on a present key raises exactly the uniqueness violation. -/
theorem createEvent_dup (db : DB) (k : EventKey) (h : k ∈ db.events) :
    createEvent db k = .error uniqueViolationErr := by
  unfold createEvent
  rw [if_pos h]

/-- The ingest loops never touch the run table. -/
theorem processMDChapter_runs (now : Nat) (db : DB) (c : Counters) (ch : MDChapter) :
    (processMDChapter now db c ch).1.runs = db.runs := by
  unfold processMDChapter
  cases ch.mangaRel with
  | none => rfl
  | some mid =>
    simp only
    cases db.series.find? (fun r => r.mangadex_id = some mid) with
    | none => rfl
    | some series =>
      simp only
      cases hc : createEvent db ⟨series.sid, jsOrStr ch.chapterAttr "0", "mangadex", ch.chapterId⟩ with
      | error e => simp only; split <;> rfl
      | ok db1 =>
        have hdb := (createEvent_ok _ _ _ hc).1
        simp only
        split
        · simp [advanceWatermark, hdb]
        · simp [hdb]

theorem mdFold_runs (now : Nat) (chapters : List MDChapter) (st : DB × Counters) :
    (chapters.foldl (fun st ch => processMDChapter now st.1 st.2 ch) st).1.runs = st.1.runs := by
  induction chapters generalizing st with
  | nil => rfl
  | cons ch chs ih => rw [List.foldl_cons, ih, processMDChapter_runs]

theorem processMURelease_runs (db : DB) (c : Counters) (rel : MURelease) :
    (processMURelease db c rel).1.runs = db.runs := by
  unfold processMURelease
  cases rel.series with
  | none => rfl
  | some p =>
    simp only
    cases hc : createEvent db ⟨p.1, jsOrStr rel.chapter "0", "mangaupdates", rel.mangaupdates_release_id⟩ with
    | error e => simp only; split <;> rfl
    | ok db1 =>
      have hdb := (createEvent_ok _ _ _ hc).1
      simp only
      split
      · simp [advanceWatermark, hdb]
      · simp [hdb]

theorem muFold_runs (releases : List MURelease) (st : DB × Counters) :
    (releases.foldl (fun st rel => processMURelease st.1 st.2 rel) st).1.runs = st.1.runs := by
  induction releases generalizing st with
  | nil => rfl
  | cons rel rels ih => rw [List.foldl_cons, ih, processMURelease_runs]

theorem ingestMangaDexChapters_runs (now : Nat) (fetch : FetchOutcome) (db : DB)
    (c : Counters) (db2 : DB) (h : ingestMangaDexChapters now fetch db = .ok (c, db2)) :
    db2.runs = db.runs := by
  unfold ingestMangaDexChapters at h
  cases fetch with
  | ok chapters =>
    simp only at h
    cases h
    exact mdFold_runs now chapters (db, zeroCounters)
  | rateLimited => cases h; rfl
  | err m => cases h

theorem ingestMangaUpdatesReleases_runs (muQuery : Except String (List MURelease)) (db : DB)
    (c : Counters) (db2 : DB) (h : ingestMangaUpdatesReleases muQuery db = .ok (c, db2)) :
    db2.runs = db.runs := by
  unfold ingestMangaUpdatesReleases at h
  cases muQuery with
  | error m => cases h; rfl
  | ok releases =>
    simp only at h
    cases h
    exact muFold_runs releases (db, zeroCounters)

/-- Finalizing a database whose run table ends in the freshly created row
rewrites exactly that row. -/
theorem completeIngestRun_getLast (runId : Nat) (c : Counters) (err : Option String)
    (db2 : DB) (base : List RunRow) (row : RunRow)
    (hr : db2.runs = base ++ [row]) (hid : row.rid = runId) :
    (completeIngestRun runId c err db2).runs.getLast? = some
      { row with
        status := if jsTruthyStr err then .failed else .completed
        events_fetched := c.events_fetched
        events_created := c.events_created
        events_skipped := c.events_skipped
        series_updated := c.series_updated
        error_count := c.errors
        rate_limit_hits := c.rate_limit_hits
        error_message := if jsTruthyStr err then err else none } := by
  unfold completeIngestRun
  simp only [hr, List.map_append, List.map_cons, List.map_nil, hid, if_pos rfl]
  exact List.getLast?_concat _

/-- **C5.** A run whose adapter call signals upstream throttling (HTTP 429)
ends gracefully: the returned result is `.ok` (no re-thrown exception) with
`rate_limit_hits = 1` and `events_fetched = 0` (nothing was retrieved
before the throttle signal), and the run row is finalized `completed`, not
`failed`, with `rate_limit_hits = 1` and no error message. -/
theorem processFeedIngest_rate_limit (env : PFEnv) (db : DB)
    (hh : env.healthy = true) (hs : env.source = "mangadex")
    (hf : env.fetchMD = .rateLimited) :
    (processFeedIngest env db).result
        = .ok { counters := { zeroCounters with rate_limit_hits := 1 },
                runId := some db.runs.length, paused_due_to_queue_depth := false }
      ∧ (processFeedIngest env db).db.runs.getLast? = some
          { rid := db.runs.length, status := .completed, events_fetched := 0,
            events_created := 0, events_skipped := 0, series_updated := 0, error_count := 0,
            rate_limit_hits := 1, error_message := none } := by
  unfold processFeedIngest
  rw [hh, hs, hf]
  simp only [Bool.true_eq_false, if_false, if_pos rfl]
  constructor
  · rfl
  · have h := completeIngestRun_getLast db.runs.length
      { zeroCounters with rate_limit_hits := 1 } none (createIngestRun db).2 db.runs
      { rid := db.runs.length, status := .running, events_fetched := 0, events_created := 0,
        events_skipped := 0, series_updated := 0, error_count := 0, rate_limit_hits := 0,
        error_message := none } rfl rfl
    simpa [ingestMangaDexChapters, zeroCounters, jsTruthyStr] using h

/-- Witness for C5: a concrete throttled MangaDex run. -/
theorem processFeedIngest_rate_limit_witness :
    (processFeedIngest
        { healthy := true, depth := 3, source := "mangadex", now := 7,
          fetchMD := .rateLimited, muQuery := .ok [] }
        { series := [], events := [], runs := [] }).result
      = .ok { counters := { zeroCounters with rate_limit_hits := 1 },
              runId := some 0, paused_due_to_queue_depth := false } :=
  (processFeedIngest_rate_limit _ _ rfl rfl rfl).1

/-- **C6 (amended).** On every non-paused run there is exactly one
finalizing run update, and the escaping error is re-raised to the caller
(`.error`) whenever one escapes.  If the captured message is non-empty the
run row is finalized `failed` carrying that message; if the captured
message is the empty string, the JS truthiness of
`status: error ? 'failed' : 'completed'` and `error_message: error || null`
(line 76 / line 82) finalizes the run `completed` with a NULL message even
though the error is still re-raised.  A run with no escaping error is
finalized `completed` with no error message and with the final counts: the
run row's counters equal the returned result's counters. -/
theorem processFeedIngest_finalize (env : PFEnv) (db : DB) (hh : env.healthy = true) :
    (processFeedIngest env db).finalizes = 1
    ∧ (∀ m, (processFeedIngest env db).result = .error m → m ≠ "" →
        ∃ row, (processFeedIngest env db).db.runs.getLast? = some row
          ∧ row.status = .failed ∧ row.error_message = some m)
    ∧ (∀ m, (processFeedIngest env db).result = .error m → m = "" →
        ∃ row, (processFeedIngest env db).db.runs.getLast? = some row
          ∧ row.status = .completed ∧ row.error_message = none)
    ∧ (∀ r, (processFeedIngest env db).result = .ok r →
        ∃ row, (processFeedIngest env db).db.runs.getLast? = some row
          ∧ row.status = .completed ∧ row.error_message = none
          ∧ row.events_fetched = r.counters.events_fetched
          ∧ row.events_created = r.counters.events_created
          ∧ row.events_skipped = r.counters.events_skipped
          ∧ row.series_updated = r.counters.series_updated
          ∧ row.error_count = r.counters.errors
          ∧ row.rate_limit_hits = r.counters.rate_limit_hits) := by
  have hrow : (createIngestRun db).2.runs = db.runs ++
      [{ rid := db.runs.length, status := .running, events_fetched := 0, events_created := 0,
         events_skipped := 0, series_updated := 0, error_count := 0, rate_limit_hits := 0,
         error_message := none }] := rfl
  unfold processFeedIngest
  rw [hh]
  simp only [Bool.true_eq_false, if_false]
  split
  · rename_i c db2 ac heq
    refine ⟨rfl, ?_, ?_, ?_⟩
    · intro m hm; cases hm
    · intro m hm; cases hm
    · intro r hr
      cases hr
      have hdb2 : db2.runs = (createIngestRun db).2.runs := by
        by_cases h1 : env.source = "mangadex"
        · rw [if_pos h1] at heq
          exact ingestMangaDexChapters_runs _ _ _ _ _ (congrArg Prod.fst heq)
        · rw [if_neg h1] at heq
          by_cases h2 : env.source = "mangaupdates"
          · rw [if_pos h2] at heq
            exact ingestMangaUpdatesReleases_runs _ _ _ _ (congrArg Prod.fst heq)
          · rw [if_neg h2] at heq
            cases congrArg Prod.fst heq
      exact ⟨_, completeIngestRun_getLast _ c none db2 db.runs _ (by rw [hdb2, hrow]) rfl,
        rfl, rfl, rfl, rfl, rfl, rfl, rfl, rfl⟩
  · rename_i m ac heq
    refine ⟨rfl, ?_, ?_, ?_⟩
    · intro m2 hm2 hne
      cases hm2
      have hts : jsTruthyStr (some m) = true := by
        simp [jsTruthyStr, hne]
      refine ⟨_, completeIngestRun_getLast _ _ (some m) _ db.runs _ hrow rfl, ?_, ?_⟩
      · simp [hts]
      · simp [hts]
    · intro m2 hm2 hemp
      cases hm2
      subst hemp
      exact ⟨_, completeIngestRun_getLast _ _ (some "") _ db.runs _ hrow rfl, rfl, rfl⟩
    · intro r hr; cases hr

/-- Witness for C6 (amended): an unknown source argument (a non-empty
captured message) finalizes the run `failed` with that message, and the
error is re-raised, per the theorem. -/
theorem processFeedIngest_finalize_witness :
    ∃ row, (processFeedIngest
        { healthy := true, depth := 3, source := "bogus", now := 7,
          fetchMD := .ok [], muQuery := .ok [] }
        { series := [], events := [], runs := [] }).db.runs.getLast? = some row
      ∧ row.status = .failed ∧ row.error_message = some "Unknown feed source: bogus" :=
  (processFeedIngest_finalize _ _ rfl).2.1 "Unknown feed source: bogus" rfl (by decide)

/-- Counterexample for C6 as stated: an adapter failure that raises an
`Error` with an empty message escapes the top-level run and is re-raised
(`.error ""`), yet the run row is finalized `completed` with a NULL
error message — `"" ? 'failed' : 'completed'` is falsy and `"" || null`
is `null` — not `failed` carrying the captured message. -/
theorem processFeedIngest_finalize_counterexample :
    (processFeedIngest
        { healthy := true, depth := 3, source := "mangadex", now := 7,
          fetchMD := .err "", muQuery := .ok [] }
        { series := [], events := [], runs := [] }).result = .error ""
    ∧ (processFeedIngest
        { healthy := true, depth := 3, source := "mangadex", now := 7,
          fetchMD := .err "", muQuery := .ok [] }
        { series := [], events := [], runs := [] }).db.runs.getLast? = some
        { rid := 0, status := .completed, events_fetched := 0, events_created := 0,
          events_skipped := 0, series_updated := 0, error_count := 1, rate_limit_hits := 0,
          error_message := none } := by
  constructor
  · rfl
  · rfl

/-! ## C2: idempotent event persistence -/

/-- The idempotency key the MangaDex loop derives for one chapter. -/
def mdKey (ch : MDChapter) (series : SeriesRow) : EventKey :=
  ⟨series.sid, jsOrStr ch.chapterAttr "0", "mangadex", ch.chapterId⟩

/-- The storage layer's uniqueness violation is classified as a duplicate
by the message check of line 186. -/
theorem classify_uniqueViolationErr : classifyAsDuplicate uniqueViolationErr = true := by decide

theorem find?_ext {α : Type} (p q : α → Bool) (l : List α) (h : ∀ a, p a = q a) :
    l.find? p = l.find? q := by
  induction l with
  | nil => rfl
  | cons a l ih =>
    simp only [List.find?]
    rw [h a, ih]

/-- The watermark statement rewrites only `last_chapter_released_at`:
looking a series up by `mangadex_id` afterwards finds the same row (same
`sid`, same `mangadex_id`). -/
theorem advanceWatermark_find (db : DB) (sid : String) (ts : Nat) (mid : String)
    (series : SeriesRow)
    (h : db.series.find? (fun r => decide (r.mangadex_id = some mid)) = some series) :
    ∃ series2, (advanceWatermark db sid ts).series.find?
        (fun r => decide (r.mangadex_id = some mid)) = some series2
      ∧ series2.sid = series.sid := by
  unfold advanceWatermark
  simp only
  rw [List.find?_map]
  have hp : ∀ r : SeriesRow,
      ((fun r => decide (r.mangadex_id = some mid)) ∘ (fun r =>
        if r.sid = sid ∧ r.deleted_at = none then
          { r with last_chapter_released_at := some (max (r.last_chapter_released_at.getD 0) ts) }
        else r)) r = decide (r.mangadex_id = some mid) := by
    intro r
    simp only [Function.comp_apply]
    split <;> rfl
  rw [find?_ext _ _ _ hp, h]
  refine ⟨_, rfl, ?_⟩
  by_cases hc : series.sid = sid ∧ series.deleted_at = none
  · simp [hc]
  · simp [hc]

/-- First persistence of an observation whose series is bound and whose
idempotency key is fresh: the event row is inserted, `events_created` is
incremented, nothing is counted skipped or errored, and the series is
still found afterwards. -/
theorem processMDChapter_create (now : Nat) (db : DB) (c0 : Counters) (ch : MDChapter)
    (mid : String) (series : SeriesRow)
    (hm : ch.mangaRel = some mid)
    (hf : db.series.find? (fun r => decide (r.mangadex_id = some mid)) = some series)
    (hk : mdKey ch series ∉ db.events) :
    ∃ db1 c1, processMDChapter now db c0 ch = (db1, c1)
      ∧ db1.events = db.events ++ [mdKey ch series]
      ∧ c1.events_created = c0.events_created + 1
      ∧ c1.events_skipped = c0.events_skipped
      ∧ c1.errors = c0.errors
      ∧ ∃ series2, db1.series.find? (fun r => decide (r.mangadex_id = some mid)) = some series2
          ∧ series2.sid = series.sid := by
  unfold processMDChapter
  rw [hm]
  simp only
  rw [hf]
  simp only
  simp only [mdKey] at hk
  rw [createEvent, if_neg hk]
  simp only
  split
  · refine ⟨_, _, rfl, rfl, rfl, rfl, rfl, ?_⟩
    exact advanceWatermark_find { db with events := db.events ++ [mdKey ch series] }
      series.sid now mid series hf
  · exact ⟨_, _, rfl, rfl, rfl, rfl, rfl, series, hf, rfl⟩

/-- Re-persisting an observation whose idempotency key already has a row:
the storage layer raises the uniqueness violation, the catch classifies it
as a duplicate, `events_skipped` is incremented, nothing is errored, and
the database is untouched. -/
theorem processMDChapter_dup (now : Nat) (db : DB) (c0 : Counters) (ch : MDChapter)
    (mid : String) (series2 : SeriesRow)
    (hm : ch.mangaRel = some mid)
    (hf : db.series.find? (fun r => decide (r.mangadex_id = some mid)) = some series2)
    (hk : mdKey ch series2 ∈ db.events) :
    processMDChapter now db c0 ch = (db, { c0 with events_skipped := c0.events_skipped + 1 }) := by
  unfold processMDChapter
  rw [hm]
  simp only
  rw [hf]
  simp only
  simp only [mdKey] at hk
  rw [createEvent, if_pos hk]
  simp [classify_uniqueViolationErr]

/-- **C2 (amended).** Persisting the same observation twice in two separate
runs leaves exactly one `ReleaseEvent` row for its idempotency key and the
second attempt is counted as skipped, not errored.  The uniqueness
violation is recognised by the catch of lines 185-191: an `instanceof
Error` test plus a string match of the message against
`'Unique constraint'` (`classifyAsDuplicate`). -/
theorem ingest_idempotent_dedup (now1 now2 : Nat) (db : DB) (ch : MDChapter)
    (mid : String) (series : SeriesRow)
    (hm : ch.mangaRel = some mid)
    (hf : db.series.find? (fun r => decide (r.mangadex_id = some mid)) = some series)
    (hk : mdKey ch series ∉ db.events) :
    ∃ c1 db1 c2 db2,
      ingestMangaDexChapters now1 (.ok [ch]) db = .ok (c1, db1)
      ∧ c1.events_created = 1 ∧ c1.events_skipped = 0 ∧ c1.errors = 0
      ∧ db1.events.count (mdKey ch series) = 1
      ∧ ingestMangaDexChapters now2 (.ok [ch]) db1 = .ok (c2, db2)
      ∧ c2.events_created = 0 ∧ c2.events_skipped = 1 ∧ c2.errors = 0
      ∧ db2.events = db1.events
      ∧ db2.events.count (mdKey ch series) = 1 := by
  obtain ⟨db1, c1, hrun, hev, hcr, hsk, herr, series2, hf2, hsid⟩ :=
    processMDChapter_create now1 db zeroCounters ch mid series hm hf hk
  have hkey : mdKey ch series2 = mdKey ch series := by
    simp [mdKey, hsid]
  have hk2 : mdKey ch series2 ∈ db1.events := by
    rw [hkey, hev]
    exact List.mem_append_right _ (List.mem_singleton.mpr rfl)
  have hdup := processMDChapter_dup now2 db1 zeroCounters ch mid series2 hm hf2 hk2
  have hcount : db1.events.count (mdKey ch series) = 1 := by
    rw [hev, List.count_append, List.count_eq_zero.mpr hk]
    simp
  refine ⟨{ c1 with events_fetched := 1 }, db1,
    { zeroCounters with events_fetched := 1, events_skipped := 1 }, db1,
    ?_, ?_, ?_, ?_, hcount, ?_, rfl, rfl, rfl, rfl, hcount⟩
  · simp only [ingestMangaDexChapters, List.foldl_cons, List.foldl_nil]
    rw [hrun]
    rfl
  · simp [hcr, zeroCounters]
  · simp [hsk, zeroCounters]
  · simp [herr, zeroCounters]
  · simp only [ingestMangaDexChapters, List.foldl_cons, List.foldl_nil]
    rw [hdup]
    rfl

/-- Witness for C2 (amended): a concrete chapter ingested twice. -/
theorem ingest_idempotent_dedup_witness :
    ∃ c1 db1 c2 db2,
      ingestMangaDexChapters 5 (.ok [{ chapterId := "c1", mangaRel := some "m1", chapterAttr := some "12" }])
          { series := [{ sid := "s1", mangadex_id := some "m1",
                         last_chapter_released_at := none, deleted_at := none }],
            events := [], runs := [] } = .ok (c1, db1)
      ∧ c1.events_created = 1 ∧ c1.events_skipped = 0 ∧ c1.errors = 0
      ∧ db1.events.count (mdKey { chapterId := "c1", mangaRel := some "m1", chapterAttr := some "12" }
          { sid := "s1", mangadex_id := some "m1",
            last_chapter_released_at := none, deleted_at := none }) = 1
      ∧ ingestMangaDexChapters 6 (.ok [{ chapterId := "c1", mangaRel := some "m1", chapterAttr := some "12" }]) db1
          = .ok (c2, db2)
      ∧ c2.events_created = 0 ∧ c2.events_skipped = 1 ∧ c2.errors = 0
      ∧ db2.events = db1.events
      ∧ db2.events.count (mdKey { chapterId := "c1", mangaRel := some "m1", chapterAttr := some "12" }
          { sid := "s1", mangadex_id := some "m1",
            last_chapter_released_at := none, deleted_at := none }) = 1 :=
  ingest_idempotent_dedup 5 6 _ _ "m1" _ rfl (by decide) (by decide)

/-- Counterexample for C2 as stated: the code's duplicate classification is
*not* a function of the storage failure's class — two uniqueness-violation
failures (same failure class) are classified differently depending on
their message text, and a genuine uniqueness violation whose message lacks
the exact string `'Unique constraint'` (e.g. a driver reporting the
PostgreSQL text `duplicate key value violates unique constraint`) is
counted as an error, unlike the spec-modelled class-inspecting
classifier. -/
theorem classify_not_by_failure_class :
    (¬ ∀ e1 e2 : StorageErr, e1.uniqueViolation = e2.uniqueViolation →
        classifyAsDuplicate e1 = classifyAsDuplicate e2)
    ∧ classifyAsDuplicate
        ⟨true, true, "duplicate key value violates unique constraint"⟩ = false
    ∧ specClassifyAsDuplicate
        ⟨true, true, "duplicate key value violates unique constraint"⟩ = true := by
  refine ⟨?_, by decide, rfl⟩
  intro h
  have h2 := h uniqueViolationErr
      ⟨true, true, "duplicate key value violates unique constraint"⟩ rfl
  rw [classify_uniqueViolationErr] at h2
  exact absurd h2 (by decide)

/-! ## On-Demand Sync Trigger (`performOnDemandSync`, part_001 lines 370-466)

The function's interactions with the database and the MangaDex scraper are
captured by an environment of oracles, one per awaited call, each an
`Except` so any of them can raise.  The control flow — outer `try/catch`
swallowing everything, inner `try/finally` releasing the advisory lock, the
`.catch` on the unlock — is translated structurally. -/

structure SourceBinding where
  source_name : String
  source_id : String
deriving DecidableEq, Repr

structure SeriesInfo where
  sources : List SourceBinding
  mangadex_id : Option String
deriving DecidableEq, Repr

structure SyncEnv where
  /-- whether `parseInt(seriesId.replace(..).substring(0, 8), 16)` is a
  number (`isNaN` guard, lines 371-376). -/
  lockIdValid : Bool
  /-- `SELECT pg_try_advisory_lock(lockId)` — the acquired flag, or a
  query failure. -/
  tryLockResult : Except String Bool
  /-- the `Promise.all` pair: `(chapter count, chapterSource count)`, both
  filtered on `deleted_at: null`. -/
  countsResult : Except String (Nat × Nat)
  /-- `series.findUnique({include: {sources}})`. -/
  seriesResult : Except String (Option SeriesInfo)
  /-- the `seriesSource.upsert` of lines 414-430. -/
  upsertResult : Except String SourceBinding
  /-- `chapter.findMany({select: {chapter_title}})` (line 437). -/
  chapterTitles : Except String (List (Option String))
  /-- whether `scrapers[syncSource.source_name]` exists. -/
  scraperFor : String → Bool
  /-- `scrapeSeries(...)` — the scraped chapter list (only its length is
  consumed by this function). -/
  scrapeResult : Except String (List Unit)
  /-- `syncChapters(...)`. -/
  syncChaptersResult : Except String Unit
  /-- `SELECT pg_advisory_unlock(lockId)`. -/
  unlockResult : Except String Unit

/-- The three placeholder titles of the seed-data heuristic (line 441). -/
def dummyTitles : List String := ["The Beginning", "The Journey", "New Discovery"]

/-- Body of the inner `try` (lines 386-457), run while holding the lock.
Returns whether the scraper was invoked (the adapter fetch) together with
the body's outcome. -/
def syncBody (env : SyncEnv) : Bool × Except String Unit :=
  match env.countsResult with
  | .error e => (false, .error e)
  | .ok (currentCount, sourceCount) =>
    match env.seriesResult with
    | .error e => (false, .error e)
    | .ok none => (false, .ok ())
    | .ok (some series) =>
      let found := match series.sources.find? (fun s => s.source_name = "mangadex") with
        | some b => some b
        | none => series.sources.head?
      let afterUpsert : Except String (Option SourceBinding) :=
        match found with
        | some b => .ok (some b)
        | none =>
          match series.mangadex_id with
          | some _ =>
            match env.upsertResult with
            | .error e => .error e
            | .ok b => .ok (some b)
          | none => .ok none
      match afterUpsert with
      | .error e => (false, .error e)
      | .ok none => (false, .ok ())
      | .ok (some syncSource) =>
        let isDummyE : Except String Bool :=
          if currentCount = 3 then
            match env.chapterTitles with
            | .error e => .error e
            | .ok ts => .ok (ts.all (fun t => decide (t.getD "" ∈ dummyTitles)))
          else .ok false
        match isDummyE with
        | .error e => (false, .error e)
        | .ok isDummy =>
          let hasOrphanedChapters := decide (0 < currentCount) && decide (sourceCount = 0)
          if decide (0 < currentCount) && !isDummy && !hasOrphanedChapters then
            (false, .ok ())
          else
            if env.scraperFor syncSource.source_name then
              match env.scrapeResult with
              | .error e => (true, .error e)
              | .ok scraped =>
                if 0 < scraped.length then
                  match env.syncChaptersResult with
                  | .error e => (true, .error e)
                  | .ok () => (true, .ok ())
                else (true, .ok ())
            else (false, .ok ())

/-- Observable outcome of one `performOnDemandSync` call. -/
structure SyncOutcome where
  /-- what the caller sees: `.ok ()` iff no exception escapes. -/
  outcome : Except String Unit
  lockAcquired : Bool
  /-- whether the `finally` block issued `pg_advisory_unlock`. -/
  unlockAttempted : Bool
  /-- whether `scrapeSeries` was invoked. -/
  fetched : Bool
deriving Repr

/-- `performOnDemandSync` (lines 370-466): invalid lock id returns early;
a failed or failing non-blocking acquire returns without error; otherwise
the body runs under the lock, the `finally` always issues the unlock (its
own failure caught by the `.catch`), and the outer `catch` logs and
swallows every escaped exception. -/
def performOnDemandSync (env : SyncEnv) : SyncOutcome :=
  if env.lockIdValid = false then
    { outcome := .ok (), lockAcquired := false, unlockAttempted := false, fetched := false }
  else
    match env.tryLockResult with
    | .error _ =>
      { outcome := .ok (), lockAcquired := false, unlockAttempted := false, fetched := false }
    | .ok false =>
      { outcome := .ok (), lockAcquired := false, unlockAttempted := false, fetched := false }
    | .ok true =>
      let body := syncBody env
      let afterFinally : Except String Unit :=
        match env.unlockResult with
        | .error _ => body.2
        | .ok () => body.2
      match afterFinally with
      | .error _ =>
        { outcome := .ok (), lockAcquired := true, unlockAttempted := true, fetched := body.1 }
      | .ok () =>
        { outcome := .ok (), lockAcquired := true, unlockAttempted := true, fetched := body.1 }

/-- Normal form of `performOnDemandSync`: the outer catch makes the
outcome `.ok ()` on every path, the `finally` issues the unlock exactly
when the lock was acquired, and nothing depends on the unlock's own
outcome (its failure is only logged). -/
theorem performOnDemandSync_eq (e : SyncEnv) :
    performOnDemandSync e =
      if e.lockIdValid = false then
        { outcome := .ok (), lockAcquired := false, unlockAttempted := false, fetched := false }
      else match e.tryLockResult with
        | .error _ =>
          { outcome := .ok (), lockAcquired := false, unlockAttempted := false, fetched := false }
        | .ok false =>
          { outcome := .ok (), lockAcquired := false, unlockAttempted := false, fetched := false }
        | .ok true =>
          { outcome := .ok (), lockAcquired := true, unlockAttempted := true,
            fetched := (syncBody e).1 } := by
  unfold performOnDemandSync
  split
  · rfl
  · split
    · rfl
    · rfl
    · simp only
      cases e.unlockResult with
      | error e2 =>
        cases (syncBody e).2 with
        | error e3 => rfl
        | ok v => cases v; rfl
      | ok v =>
        cases v
        cases (syncBody e).2 with
        | error e3 => rfl
        | ok v2 => cases v2; rfl

/-- **C7.** `performOnDemandSync` never propagates an exception: for every
environment (any combination of failures in lock handling, the re-check
queries, the scrape or the persist) the caller sees `.ok ()`; the unlock
is issued in the `finally` exactly when the lock was acquired, regardless
of success or failure of the body; and the entire observable behaviour is
independent of the unlock's own result, so a lock-release failure is
swallowed, not propagated. -/
theorem performOnDemandSync_never_throws (env : SyncEnv) (u : Except String Unit) :
    (performOnDemandSync env).outcome = .ok ()
    ∧ (performOnDemandSync env).unlockAttempted = (performOnDemandSync env).lockAcquired
    ∧ performOnDemandSync { env with unlockResult := u } = performOnDemandSync env := by
  rw [performOnDemandSync_eq, performOnDemandSync_eq]
  refine ⟨?_, ?_, rfl⟩
  · split
    · rfl
    · split <;> rfl
  · split
    · rfl
    · split <;> rfl

/-- The placeholder/seed-data pattern of lines 436-443: exactly three
chapters, all of whose titles are among the three placeholder titles. -/
def isDummyPattern (c : Nat) (ts : List (Option String)) : Bool :=
  decide (c = 3) && ts.all (fun t => decide (t.getD "" ∈ dummyTitles))

theorem syncBody_recheck (env : SyncEnv) (c sc : Nat) (ts : List (Option String))
    (hc : env.countsResult = .ok (c, sc))
    (ht : env.chapterTitles = .ok ts) :
    (0 < c → isDummyPattern c ts = false → 0 < sc → (syncBody env).1 = false)
    ∧ ((syncBody env).1 = true → c = 0 ∨ isDummyPattern c ts = true ∨ (0 < c ∧ sc = 0)) := by
  unfold syncBody
  rw [hc]
  simp only
  cases env.seriesResult with
  | error e => simp
  | ok os =>
    cases os with
    | none => simp
    | some series =>
      simp only
      split
      · simp
      · simp
      · rename_i syncSource heq
        split
        · simp
        · rename_i isDummy heq2
          have hdummy : isDummy = isDummyPattern c ts := by
            by_cases h3 : c = 3
            · rw [if_pos h3, ht] at heq2
              cases heq2
              simp [isDummyPattern, h3]
            · rw [if_neg h3] at heq2
              cases heq2
              simp [isDummyPattern, h3]
          subst hdummy
          by_cases hcond : (decide (0 < c) && !(isDummyPattern c ts)
              && !(decide (0 < c) && decide (sc = 0))) = true
          · rw [if_pos hcond]
            refine ⟨fun _ _ _ => rfl, fun h => absurd h (by simp)⟩
          · rw [if_neg hcond]
            constructor
            · intro h1 h2 h3
              exact absurd (by simp [h1, h2, Nat.pos_iff_ne_zero.mp h3]) hcond
            · intro _
              by_cases h0 : 0 < c
              · by_cases hd : isDummyPattern c ts = true
                · exact Or.inr (Or.inl hd)
                · by_cases hsc : sc = 0
                  · exact Or.inr (Or.inr ⟨h0, hsc⟩)
                  · exact absurd (by simp [h0, Bool.eq_false_iff.mpr hd, hsc]) hcond
              · exact Or.inl (by omega)

/-- **C8.** Under the advisory lock, `performOnDemandSync` re-checks the
series state: when the series has chapters (`0 < c`), they are not the
three-placeholder seed pattern, and at least one per-source detail row
exists (`0 < sc`), no adapter fetch is performed; and whenever a fetch is
performed the series genuinely needed syncing — it had no chapters, or
its chapters are the placeholder pattern, or they are orphaned (chapters
with zero per-source detail rows). -/
theorem performOnDemandSync_recheck (env : SyncEnv) (c sc : Nat) (ts : List (Option String))
    (hl : env.tryLockResult = .ok true)
    (hc : env.countsResult = .ok (c, sc))
    (ht : env.chapterTitles = .ok ts) :
    (0 < c → isDummyPattern c ts = false → 0 < sc →
      (performOnDemandSync env).fetched = false)
    ∧ ((performOnDemandSync env).fetched = true →
        c = 0 ∨ isDummyPattern c ts = true ∨ (0 < c ∧ sc = 0)) := by
  rw [performOnDemandSync_eq]
  split
  · simp
  · rw [hl]
    exact syncBody_recheck env c sc ts hc ht

/-- Witness for C8: a series with two chapters, a bound source and one
detail row is not re-fetched. -/
theorem performOnDemandSync_recheck_witness :
    (performOnDemandSync
      { lockIdValid := true, tryLockResult := .ok true, countsResult := .ok (2, 1),
        seriesResult := .ok (some { sources := [{ source_name := "mangadex", source_id := "m1" }],
                                    mangadex_id := some "m1" }),
        upsertResult := .ok { source_name := "mangadex", source_id := "m1" },
        chapterTitles := .ok [some "Prologue"], scraperFor := fun _ => true,
        scrapeResult := .ok [()], syncChaptersResult := .ok (),
        unlockResult := .ok () }).fetched = false :=
  (performOnDemandSync_recheck _ 2 1 [some "Prologue"] rfl rfl rfl).1
    (by decide) (by decide) (by decide)

/-! ## C4: advisory-lock exclusivity of concurrent syncIfEmpty calls

Two concurrent `performOnDemandSync` calls for the same series are modelled
as a two-process machine over the shared advisory lock and the series
state.  Each process runs the program of lines 379-462: a non-blocking
`pg_try_advisory_lock` (`tryL`; failure goes straight to `done`), the
re-check reads under the lock (`check`), the guarded scrape-and-reconcile
(`fetch`, which performs the adapter fetch only when the re-check still
reports the series unsynced, and then marks it synced), the
`pg_advisory_unlock` of the `finally` (`unlock`), and `done`.  The
schedule is an arbitrary interleaving of the two processes' atomic
steps. -/

inductive PPC where
  | tryL | check | fetch | unlock | done
deriving DecidableEq, Fintype, Repr

/-- Joint state of the two processes (`A` = `true`, `B` = `false`) and the
shared resources: the advisory lock holder and whether the series has been
synced. -/
structure LockMachine where
  lock : Option Bool
  synced : Bool
  pcA : PPC
  pcB : PPC
  needsA : Bool
  needsB : Bool
  failedA : Bool
  failedB : Bool
  fetchedA : Bool
  fetchedB : Bool
deriving DecidableEq, Repr

def pcOf (s : LockMachine) (p : Bool) : PPC := cond p s.pcA s.pcB
def needsOf (s : LockMachine) (p : Bool) : Bool := cond p s.needsA s.needsB
def failedOf (s : LockMachine) (p : Bool) : Bool := cond p s.failedA s.failedB
def fetchedOf (s : LockMachine) (p : Bool) : Bool := cond p s.fetchedA s.fetchedB
def setPc (s : LockMachine) (p : Bool) (v : PPC) : LockMachine :=
  cond p { s with pcA := v } { s with pcB := v }
def setNeeds (s : LockMachine) (p : Bool) (v : Bool) : LockMachine :=
  cond p { s with needsA := v } { s with needsB := v }
def setFailed (s : LockMachine) (p : Bool) (v : Bool) : LockMachine :=
  cond p { s with failedA := v } { s with failedB := v }
def setFetched (s : LockMachine) (p : Bool) (v : Bool) : LockMachine :=
  cond p { s with fetchedA := v } { s with fetchedB := v }

/-- One atomic step of process `p`. -/
def mstep (s : LockMachine) (p : Bool) : LockMachine :=
  match pcOf s p with
  | .tryL =>
    if s.lock = none then setPc { s with lock := some p } p .check
    else setFailed (setPc s p .done) p true
  | .check => setPc (setNeeds s p (!s.synced)) p .fetch
  | .fetch =>
    if needsOf s p then setPc { (setFetched s p true) with synced := true } p .unlock
    else setPc s p .unlock
  | .unlock => setPc { s with lock := none } p .done
  | .done => s

def mrun (s : LockMachine) (sched : List Bool) : LockMachine := sched.foldl mstep s

def minit : LockMachine :=
  { lock := none, synced := false, pcA := .tryL, pcB := .tryL, needsA := false, needsB := false,
    failedA := false, failedB := false, fetchedA := false, fetchedB := false }

def inCS (s : LockMachine) (q : Bool) : Bool :=
  (pcOf s q == .check) || (pcOf s q == .fetch) || (pcOf s q == .unlock)

def allB (f : Bool → Bool) : Bool := f true && f false

/-- Number of adapter fetches performed so far. -/
def fetchCount (s : LockMachine) : Nat :=
  (cond s.fetchedA 1 0) + (cond s.fetchedB 1 0)

/-- Inductive invariant: the lock holder is exactly the process in its
critical section; a process at `fetch` recorded the then-current sync
state; the number of fetches matches the sync flag; a failed process is
done without having fetched; a process reaching `unlock` or completing
without failure has seen the series synced; the two processes cannot both
have failed the acquire. -/
def lockInvB (s : LockMachine) : Bool :=
  allB (fun q => !(s.lock == some q) || inCS s q)
  && allB (fun q => !(inCS s q) || (s.lock == some q))
  && allB (fun q => !(pcOf s q == .fetch) || ((!(needsOf s q) || !s.synced) && (needsOf s q || s.synced)))
  && (fetchCount s == cond s.synced 1 0)
  && allB (fun q => !(failedOf s q) || ((pcOf s q == .done) && !(fetchedOf s q)))
  && allB (fun q => !(pcOf s q == .unlock) || s.synced)
  && allB (fun q => !(pcOf s q == .done) || (failedOf s q || s.synced))
  && !(s.failedA && s.failedB)
  && allB (fun q => !(pcOf s q == .tryL) || !(fetchedOf s q))

set_option maxHeartbeats 4000000 in
theorem lockInv_step_flat :
    ∀ (lk : Option Bool) (sy : Bool) (pa pb : PPC) (na nb fa fb ga gb : Bool) (p : Bool),
      lockInvB ⟨lk, sy, pa, pb, na, nb, fa, fb, ga, gb⟩ = true →
      lockInvB (mstep ⟨lk, sy, pa, pb, na, nb, fa, fb, ga, gb⟩ p) = true := by decide

set_option maxHeartbeats 4000000 in
theorem lockInv_final_flat :
    ∀ (lk : Option Bool) (sy : Bool) (pa pb : PPC) (na nb fa fb ga gb : Bool),
      lockInvB ⟨lk, sy, pa, pb, na, nb, fa, fb, ga, gb⟩ = true → pa = .done → pb = .done →
      fetchCount ⟨lk, sy, pa, pb, na, nb, fa, fb, ga, gb⟩ = 1
      ∧ (fa = true → ga = false) ∧ (fb = true → gb = false) := by decide

theorem lockInv_step (s : LockMachine) (p : Bool) (h : lockInvB s = true) :
    lockInvB (mstep s p) = true := by
  cases s
  exact lockInv_step_flat _ _ _ _ _ _ _ _ _ _ p h

theorem lockInv_mrun (sched : List Bool) (s : LockMachine) (h : lockInvB s = true) :
    lockInvB (mrun s sched) = true := by
  induction sched generalizing s with
  | nil => exact h
  | cons p sched ih => exact ih (mstep s p) (lockInv_step s p h)

theorem lockInv_final (s : LockMachine) (h : lockInvB s = true)
    (hA : s.pcA = .done) (hB : s.pcB = .done) :
    fetchCount s = 1
    ∧ (s.failedA = true → s.fetchedA = false)
    ∧ (s.failedB = true → s.fetchedB = false) := by
  cases s
  exact lockInv_final_flat _ _ _ _ _ _ _ _ _ _ h hA hB

/-- **C4.** For any interleaving in which two concurrent `syncIfEmpty`
calls for the same series both run to completion, exactly one performs the
fetch+reconcile sequence; a caller whose non-blocking advisory-lock
acquisition fails performs no fetch, and (on the `performOnDemandSync`
embedding) such a caller returns immediately without error and without
fetching. -/
theorem syncIfEmpty_lock_exclusivity (sched : List Bool) (env : SyncEnv)
    (hA : (mrun minit sched).pcA = .done) (hB : (mrun minit sched).pcB = .done)
    (hfail : env.tryLockResult = .ok false) :
    fetchCount (mrun minit sched) = 1
    ∧ ((mrun minit sched).failedA = true → (mrun minit sched).fetchedA = false)
    ∧ ((mrun minit sched).failedB = true → (mrun minit sched).fetchedB = false)
    ∧ (performOnDemandSync env).fetched = false
    ∧ (performOnDemandSync env).outcome = .ok () := by
  have hinv := lockInv_mrun sched minit (by decide)
  obtain ⟨h1, h2, h3⟩ := lockInv_final _ hinv hA hB
  have hd : (performOnDemandSync env).fetched = false
      ∧ (performOnDemandSync env).outcome = .ok () := by
    rw [performOnDemandSync_eq]
    split
    · exact ⟨rfl, rfl⟩
    · rw [hfail]
      exact ⟨rfl, rfl⟩
  exact ⟨h1, h2, h3, hd.1, hd.2⟩

/-- Witness for C4: process A acquires, B attempts while A holds the lock
and fails, A completes the sync; exactly one fetch happens. -/
theorem syncIfEmpty_lock_exclusivity_witness :
    fetchCount (mrun minit [true, false, true, true, true]) = 1 :=
  (syncIfEmpty_lock_exclusivity [true, false, true, true, true]
    { lockIdValid := true, tryLockResult := .ok false, countsResult := .ok (0, 0),
      seriesResult := .ok none, upsertResult := .error "unused",
      chapterTitles := .ok [], scraperFor := fun _ => false, scrapeResult := .ok [],
      syncChaptersResult := .ok (), unlockResult := .ok () }
    (by decide) (by decide) rfl).1

/-! ## Run/Alert Telemetry (`monitoring.ts`, `DLQAlertingService`) -/

inductive DLQAlertType where
  | dlq_threshold | dlq_critical | metadata_failure | source_failure | system_error
deriving DecidableEq, Repr

/-- The string used in the cooldown key (the TS union member itself). -/
def DLQAlertType.keyName : DLQAlertType → String
  | .dlq_threshold => "dlq_threshold"
  | .dlq_critical => "dlq_critical"
  | .metadata_failure => "metadata_failure"
  | .source_failure => "source_failure"
  | .system_error => "system_error"

inductive AlertSeverity where
  | warning | error | critical
deriving DecidableEq, Repr

structure DLQAlert where
  type : DLQAlertType
  entityId : Option String
  failureCount : Nat
  message : String
  timestamp : Nat
  severity : AlertSeverity
deriving DecidableEq, Repr

/-- State of the `DLQAlertingService` singleton: the process-wide
`lastAlertTime` map and the alerts actually dispatched so far (console +
handlers + `captureMessage`, which all run unconditionally once the
cooldown check passes). -/
structure AlertingState where
  lastAlertTime : List (String × Nat)
  dispatched : List DLQAlert
deriving DecidableEq, Repr

def initAlertingState : AlertingState := { lastAlertTime := [], dispatched := [] }

def alertCooldownMs : Nat := 5 * 60 * 1000

def lookupTime (m : List (String × Nat)) (k : String) : Option Nat :=
  (m.find? (fun kv => kv.1 = k)).map (fun kv => kv.2)

/-- JS `Map.prototype.set`: replace in place or append. -/
def setTime (m : List (String × Nat)) (k : String) (v : Nat) : List (String × Nat) :=
  if m.any (fun kv => kv.1 = k) then
    m.map (fun kv => if kv.1 = k then (k, v) else kv)
  else m ++ [(k, v)]

/-- `sendAlert` (lines 173-203).  The cooldown check is the JS
`if (lastAlert && now - lastAlert < this.alertCooldownMs) return;` — note
the truthiness test on `lastAlert` (a stored timestamp of `0` is falsy). -/
def sendAlert (st : AlertingState) (a : DLQAlert) (now : Nat) : AlertingState :=
  let alertKey := a.type.keyName ++ ":" ++ a.entityId.getD "global"
  let lastAlert := lookupTime st.lastAlertTime alertKey
  let suppressed := match lastAlert with
    | some t => decide (t ≠ 0) && decide (now - t < alertCooldownMs)
    | none => false
  if suppressed then st
  else
    { lastAlertTime := setTime st.lastAlertTime alertKey now
      dispatched := st.dispatched ++ [a] }

/-- `checkDLQThresholds` (lines 205-231), with the reference thresholds
`{warning := 50, error := 200, critical := 500}` of its default
argument. -/
def checkDLQThresholds (st : AlertingState) (dlqCount : Nat) (now : Nat) : AlertingState :=
  if 500 ≤ dlqCount then
    sendAlert st
      { type := .dlq_critical, entityId := none, failureCount := dlqCount
        message := "CRITICAL: DLQ has " ++ toString dlqCount ++ " unresolved failures (threshold: 500)"
        timestamp := now, severity := .critical } now
  else if 200 ≤ dlqCount then
    sendAlert st
      { type := .dlq_threshold, entityId := none, failureCount := dlqCount
        message := "ERROR: DLQ has " ++ toString dlqCount ++ " unresolved failures (threshold: 200)"
        timestamp := now, severity := .error } now
  else if 50 ≤ dlqCount then
    sendAlert st
      { type := .dlq_threshold, entityId := none, failureCount := dlqCount
        message := "WARNING: DLQ has " ++ toString dlqCount ++ " unresolved failures (threshold: 50)"
        timestamp := now, severity := .warning } now
  else st

/-- The critical alert object built by `checkDLQThresholds`. -/
def criticalAlert (c t : Nat) : DLQAlert :=
  { type := .dlq_critical, entityId := none, failureCount := c
    message := "CRITICAL: DLQ has " ++ toString c ++ " unresolved failures (threshold: 500)"
    timestamp := t, severity := .critical }

/-- **C9.** Calling `checkThresholds` twice within the cooldown window
(5 minutes) with both counts above the critical threshold dispatches
exactly one alert: both calls produce the same `(type, entityId)` key
`dlq_critical:global`, so the second send is suppressed by the
process-wide last-sent map.  (`0 < t1` reflects that `Date.now()` is a
positive epoch-milliseconds reading; a literal stored time of `0` would be
falsy in the JS cooldown check.) -/
theorem checkDLQThresholds_cooldown (c1 c2 t1 t2 : Nat)
    (hc1 : 500 ≤ c1) (hc2 : 500 ≤ c2) (ht1 : 0 < t1) (hle : t1 ≤ t2)
    (hwin : t2 - t1 < alertCooldownMs) :
    (checkDLQThresholds (checkDLQThresholds initAlertingState c1 t1) c2 t2).dispatched.length
      = 1 := by
  have hkey : (DLQAlertType.dlq_critical.keyName ++ ":" ++ (none : Option String).getD "global")
      = "dlq_critical:global" := rfl
  have h1 : checkDLQThresholds initAlertingState c1 t1 =
      { lastAlertTime := [("dlq_critical:global", t1)], dispatched := [criticalAlert c1 t1] } := by
    unfold checkDLQThresholds
    rw [if_pos hc1]
    rfl
  rw [h1]
  unfold checkDLQThresholds
  rw [if_pos hc2]
  unfold sendAlert
  simp only
  have hsup : (match lookupTime [("dlq_critical:global", t1)]
        (DLQAlertType.dlq_critical.keyName ++ ":" ++ (none : Option String).getD "global") with
      | some t => decide (t ≠ 0) && decide (t2 - t < alertCooldownMs)
      | none => false) = true := by
    rw [hkey]
    have hl : lookupTime [("dlq_critical:global", t1)] "dlq_critical:global" = some t1 := rfl
    rw [hl]
    simp only
    rw [decide_eq_true (Nat.pos_iff_ne_zero.mp ht1), decide_eq_true hwin]
    rfl
  rw [if_pos hsup]
  rfl

/-- Witness for C9: two critical checks one second apart dispatch once. -/
theorem checkDLQThresholds_cooldown_witness :
    (checkDLQThresholds (checkDLQThresholds initAlertingState 600 1000) 700 2000).dispatched.length
      = 1 :=
  checkDLQThresholds_cooldown 600 700 1000 2000 (by decide) (by decide) (by decide)
    (by decide) (by decide)

/-! ## BoundedRateLimitStore (middleware, part_003 lines 15-83)

The JS `Map<string, {count, resetTime}>` is modelled as an association list
in insertion order (`Map` iteration order).  `Date.now()` is threaded into
each operation as `now`.  The JS `if (oldestKey)` truthiness test of the
eviction path is translated faithfully: the empty-string key is falsy. -/

structure RLEntry where
  count : Nat
  resetTime : Nat
deriving DecidableEq, Repr

structure BoundedRateLimitStore where
  store : List (String × RLEntry)
  maxEntries : Nat
  lastCleanup : Nat
deriving DecidableEq, Repr

def cleanupInterval : Nat := 60000

/-- `cleanup()` (lines 25-48): throttled to once per `cleanupInterval`;
drops expired entries; if still over the limit, sorts by `resetTime` and
deletes the oldest overflow. -/
def rlCleanup (now : Nat) (s : BoundedRateLimitStore) : BoundedRateLimitStore :=
  if now - s.lastCleanup < cleanupInterval then s
  else
    let st1 := s.store.filter (fun kv => !(decide (kv.2.resetTime < now)))
    let st2 :=
      if s.maxEntries < st1.length then
        let sorted := st1.insertionSort (fun a b => a.2.resetTime ≤ b.2.resetTime)
        let toDelete := sorted.take (st1.length - s.maxEntries)
        st1.filter (fun kv => !(toDelete.any (fun d => d.1 == kv.1)))
      else st1
    { store := st2, maxEntries := s.maxEntries, lastCleanup := now }

/-- JS `Map.prototype.set`: replace the entry in place, or append. -/
def rlMapSet (l : List (String × RLEntry)) (k : String) (v : RLEntry) :
    List (String × RLEntry) :=
  if l.any (fun kv => kv.1 == k) then
    l.map (fun kv => if kv.1 == k then (k, v) else kv)
  else l ++ [(k, v)]

/-- The oldest-entry scan of lines 61-69 (`oldestTime` starts at
`Infinity`, so the first entry always wins against the initial state). -/
def findOldestAux : Option (String × Nat) → List (String × RLEntry) → Option (String × Nat)
  | acc, [] => acc
  | none, kv :: rest => findOldestAux (some (kv.1, kv.2.resetTime)) rest
  | some (k0, t0), kv :: rest =>
    if kv.2.resetTime < t0 then findOldestAux (some (kv.1, kv.2.resetTime)) rest
    else findOldestAux (some (k0, t0)) rest

def findOldest (l : List (String × RLEntry)) : Option String :=
  (findOldestAux none l).map (fun kt => kt.1)

/-- The still-at-capacity eviction of lines 60-73: find the oldest entry
and delete it — guarded by the JS-truthy `if (oldestKey)`, under which an
empty-string key is never deleted. -/
def rlEvict (s1 : BoundedRateLimitStore) : BoundedRateLimitStore :=
  if s1.maxEntries ≤ s1.store.length then
    match findOldest s1.store with
    | some oldestKey =>
      if oldestKey = "" then s1
      else { s1 with store := s1.store.filter (fun kv => !(kv.1 == oldestKey)) }
    | none => s1
  else s1

/-- The final insert of line 75. -/
def rlInsert (k : String) (v : RLEntry) (s2 : BoundedRateLimitStore) : BoundedRateLimitStore :=
  { s2 with store := rlMapSet s2.store k v }

/-- `set(key, value)` (lines 54-76): proactive cleanup at capacity; if
still at capacity, evict the oldest entry; then insert. -/
def rlSet (k : String) (v : RLEntry) (now : Nat) (s : BoundedRateLimitStore) :
    BoundedRateLimitStore :=
  rlInsert k v (rlEvict (if s.maxEntries ≤ s.store.length then rlCleanup now s else s))

/-- The store operations reachable from the middleware (`get` reads only;
`checkRateLimit` calls `triggerCleanup`, `get` and `set`). -/
inductive RLOp where
  | get (k : String) (now : Nat)
  | set (k : String) (count resetTime : Nat) (now : Nat)
  | triggerCleanup (now : Nat)
deriving DecidableEq, Repr

def applyRLOp (s : BoundedRateLimitStore) : RLOp → BoundedRateLimitStore
  | .get _ _ => s
  | .set k c r now => rlSet k ⟨c, r⟩ now s
  | .triggerCleanup now => rlCleanup now s

/-- `new BoundedRateLimitStore(10000)` (line 83), constructed at time
`t0` (`lastCleanup = Date.now()`). -/
def initRLStore (t0 : Nat) : BoundedRateLimitStore :=
  { store := [], maxEntries := 10000, lastCleanup := t0 }

theorem rlCleanup_le (now : Nat) (s : BoundedRateLimitStore) :
    (rlCleanup now s).store.length ≤ s.store.length := by
  unfold rlCleanup
  split
  · exact le_refl _
  · simp only
    split
    · exact le_trans (List.length_filter_le _ _) (List.length_filter_le _ _)
    · exact List.length_filter_le _ _

theorem rlCleanup_max (now : Nat) (s : BoundedRateLimitStore) :
    (rlCleanup now s).maxEntries = s.maxEntries := by
  unfold rlCleanup
  split
  · rfl
  · rfl

theorem rlCleanup_subset (now : Nat) (s : BoundedRateLimitStore) :
    ∀ kv ∈ (rlCleanup now s).store, kv ∈ s.store := by
  unfold rlCleanup
  split
  · exact fun kv h => h
  · simp only
    split
    · intro kv h
      exact List.mem_of_mem_filter (List.mem_of_mem_filter h)
    · intro kv h
      exact List.mem_of_mem_filter h

theorem rlMapSet_le (l : List (String × RLEntry)) (k : String) (v : RLEntry) :
    (rlMapSet l k v).length ≤ l.length + 1 := by
  unfold rlMapSet
  split
  · rw [List.length_map]
    exact Nat.le_succ _
  · rw [List.length_append]
    exact le_refl _

theorem rlMapSet_keys (l : List (String × RLEntry)) (k : String) (v : RLEntry)
    (hl : ∀ kv ∈ l, kv.1 ≠ "") (hk : k ≠ "") :
    ∀ kv ∈ rlMapSet l k v, kv.1 ≠ "" := by
  unfold rlMapSet
  split
  · intro kv hm
    obtain ⟨kv0, hkv0, hmap⟩ := List.mem_map.mp hm
    by_cases he : kv0.1 == k
    · rw [if_pos he] at hmap
      rw [← hmap]
      exact hk
    · rw [if_neg he] at hmap
      rw [← hmap]
      exact hl kv0 hkv0
  · intro kv hm
    rcases List.mem_append.mp hm with h1 | h2
    · exact hl kv h1
    · rw [List.mem_singleton.mp h2]
      exact hk

theorem erase_key_lt (l : List (String × RLEntry)) (k : String)
    (h : ∃ kv ∈ l, kv.1 = k) :
    (l.filter (fun kv => !(kv.1 == k))).length < l.length := by
  induction l with
  | nil =>
    obtain ⟨kv, hm, _⟩ := h
    cases hm
  | cons kv0 rest ih =>
    by_cases he : kv0.1 == k
    · rw [List.filter_cons_of_neg (by simp [he])]
      exact Nat.lt_succ_of_le (List.length_filter_le _ _)
    · rw [List.filter_cons_of_pos (by simp [he])]
      have hrest : ∃ kv ∈ rest, kv.1 = k := by
        obtain ⟨kv, hm, hk⟩ := h
        rcases List.mem_cons.mp hm with h1 | h2
        · exact absurd (h1 ▸ hk) (by simpa using he)
        · exact ⟨kv, h2, hk⟩
      simpa using Nat.succ_lt_succ (ih hrest)

theorem findOldestAux_isSome (x : String × Nat) (l : List (String × RLEntry)) :
    (findOldestAux (some x) l).isSome = true := by
  induction l generalizing x with
  | nil => rfl
  | cons kv rest ih =>
    obtain ⟨k0, t0⟩ := x
    unfold findOldestAux
    split
    · exact ih _
    · exact ih _

theorem findOldestAux_mem (l : List (String × RLEntry)) :
    ∀ (acc : Option (String × Nat)) (k : String) (t : Nat),
      findOldestAux acc l = some (k, t) → acc = some (k, t) ∨ ∃ kv ∈ l, kv.1 = k := by
  induction l with
  | nil =>
    intro acc k t h
    cases acc with
    | none => exact Or.inl h
    | some x => exact Or.inl h
  | cons kv0 rest ih =>
    intro acc k t h
    cases acc with
    | none =>
      rcases ih _ _ _ h with h1 | ⟨kv, hm, hk⟩
      · cases h1
        exact Or.inr ⟨kv0, List.mem_cons_self _ _, rfl⟩
      · exact Or.inr ⟨kv, List.mem_cons_of_mem _ hm, hk⟩
    | some x =>
      obtain ⟨k0, t0⟩ := x
      unfold findOldestAux at h
      split at h
      · rcases ih _ _ _ h with h1 | ⟨kv, hm, hk⟩
        · cases h1
          exact Or.inr ⟨kv0, List.mem_cons_self _ _, rfl⟩
        · exact Or.inr ⟨kv, List.mem_cons_of_mem _ hm, hk⟩
      · rcases ih _ _ _ h with h1 | ⟨kv, hm, hk⟩
        · exact Or.inl h1
        · exact Or.inr ⟨kv, List.mem_cons_of_mem _ hm, hk⟩

theorem findOldest_mem (l : List (String × RLEntry)) (h : l ≠ []) :
    ∃ k, findOldest l = some k ∧ ∃ kv ∈ l, kv.1 = k := by
  cases l with
  | nil => exact absurd rfl h
  | cons kv0 rest =>
    unfold findOldest findOldestAux
    have hs := findOldestAux_isSome (kv0.1, kv0.2.resetTime) rest
    obtain ⟨⟨k, t⟩, hkt⟩ := Option.isSome_iff_exists.mp hs
    rw [hkt]
    refine ⟨k, rfl, ?_⟩
    rcases findOldestAux_mem rest _ _ _ hkt with h1 | ⟨kv, hm, hk⟩
    · cases h1
      exact ⟨kv0, List.mem_cons_self _ _, rfl⟩
    · exact ⟨kv, List.mem_cons_of_mem _ hm, hk⟩

/-- Invariant of the store: bounded size and (for the amended claim) no
empty-string key. -/
def rlInv (s : BoundedRateLimitStore) : Prop :=
  s.store.length ≤ s.maxEntries ∧ ∀ kv ∈ s.store, kv.1 ≠ ""

theorem rlCleanup_inv (now : Nat) (s : BoundedRateLimitStore) (h : rlInv s) :
    rlInv (rlCleanup now s) := by
  refine ⟨le_trans (rlCleanup_le now s) (by rw [rlCleanup_max]; exact h.1), ?_⟩
  intro kv hm
  exact h.2 kv (rlCleanup_subset now s kv hm)

theorem rlEvict_max (s1 : BoundedRateLimitStore) : (rlEvict s1).maxEntries = s1.maxEntries := by
  unfold rlEvict
  split
  · split
    · split
      · rfl
      · rfl
    · rfl
  · rfl

theorem rlEvict_keys (s1 : BoundedRateLimitStore) (h : ∀ kv ∈ s1.store, kv.1 ≠ "") :
    ∀ kv ∈ (rlEvict s1).store, kv.1 ≠ "" := by
  unfold rlEvict
  split
  · split
    · split
      · exact h
      · intro kv hm
        exact h kv (List.mem_of_mem_filter hm)
    · exact h
  · exact h

/-- With a bounded store holding no empty-string key, the eviction step
leaves strictly fewer entries than the maximum. -/
theorem rlEvict_lt (s1 : BoundedRateLimitStore) (hmax : 1 ≤ s1.maxEntries) (h1 : rlInv s1) :
    (rlEvict s1).store.length < s1.maxEntries := by
  unfold rlEvict
  by_cases hc : s1.maxEntries ≤ s1.store.length
  · rw [if_pos hc]
    have hne : s1.store ≠ [] := by
      intro hnil
      rw [hnil] at hc
      simp only [List.length_nil, Nat.le_zero] at hc
      omega
    obtain ⟨k0, hfo, kv0, hkv0m, hkv0⟩ := findOldest_mem s1.store hne
    rw [hfo]
    have hk0 : k0 ≠ "" := hkv0 ▸ h1.2 kv0 hkv0m
    simp only
    rw [if_neg hk0]
    show (s1.store.filter (fun kv => !(kv.1 == k0))).length < s1.maxEntries
    exact lt_of_lt_of_le (erase_key_lt s1.store k0 ⟨kv0, hkv0m, hkv0⟩) h1.1
  · rw [if_neg hc]
    exact Nat.lt_of_not_le hc

theorem rlSet_inv (k : String) (v : RLEntry) (now : Nat) (s : BoundedRateLimitStore)
    (hmax : 1 ≤ s.maxEntries) (h : rlInv s) (hk : k ≠ "") :
    rlInv (rlSet k v now s) ∧ (rlSet k v now s).maxEntries = s.maxEntries := by
  unfold rlSet rlInsert
  set s1 := if s.maxEntries ≤ s.store.length then rlCleanup now s else s with hs1
  have h1 : rlInv s1 ∧ s1.maxEntries = s.maxEntries := by
    rw [hs1]
    split
    · exact ⟨rlCleanup_inv now s h, rlCleanup_max now s⟩
    · exact ⟨h, rfl⟩
  have hmax1 : 1 ≤ s1.maxEntries := h1.2 ▸ hmax
  have hlt := rlEvict_lt s1 hmax1 h1.1
  have hkeys := rlEvict_keys s1 h1.1.2
  have hmx := rlEvict_max s1
  refine ⟨⟨?_, rlMapSet_keys _ k v hkeys hk⟩, ?_⟩
  · show (rlMapSet (rlEvict s1).store k v).length ≤ (rlEvict s1).maxEntries
    rw [hmx]
    calc (rlMapSet (rlEvict s1).store k v).length
        ≤ (rlEvict s1).store.length + 1 := rlMapSet_le _ _ _
      _ ≤ s1.maxEntries := hlt
  · show (rlEvict s1).maxEntries = s.maxEntries
    rw [hmx, h1.2]

/-- Key of a `set` operation, if any. -/
def rlOpSetKey : RLOp → Option String
  | .set k _ _ _ => some k
  | _ => none

theorem applyRLOp_inv (s : BoundedRateLimitStore) (op : RLOp)
    (hmax : 1 ≤ s.maxEntries) (h : rlInv s) (hk : rlOpSetKey op ≠ some "") :
    rlInv (applyRLOp s op) ∧ (applyRLOp s op).maxEntries = s.maxEntries := by
  cases op with
  | get k now => exact ⟨h, rfl⟩
  | set k c r now =>
    have hk2 : k ≠ "" := by
      intro he
      exact hk (by rw [rlOpSetKey, he])
    exact rlSet_inv k ⟨c, r⟩ now s hmax h hk2
  | triggerCleanup now =>
    exact ⟨rlCleanup_inv now s h, rlCleanup_max now s⟩

theorem foldRLOps_inv (ops : List RLOp) (s : BoundedRateLimitStore)
    (hmax : 1 ≤ s.maxEntries) (h : rlInv s) (hk : ∀ op ∈ ops, rlOpSetKey op ≠ some "") :
    rlInv (ops.foldl applyRLOp s) ∧ (ops.foldl applyRLOp s).maxEntries = s.maxEntries := by
  induction ops generalizing s with
  | nil => exact ⟨h, rfl⟩
  | cons op ops ih =>
    have hstep := applyRLOp_inv s op hmax h (hk op (List.mem_cons_self _ _))
    have hrec := ih (applyRLOp s op) (hstep.2 ▸ hmax) hstep.1
      (fun op2 hm => hk op2 (List.mem_cons_of_mem _ hm))
    exact ⟨hrec.1, hrec.2.trans hstep.2⟩

/-- **C10 (amended).** For every sequence of operations on the middleware's
in-memory rate-limit store whose `set` keys are non-empty strings, the
number of stored entries never exceeds the configured maximum (10000):
`set` runs the (once-per-minute-throttled) expired-entry cleanup when at
capacity and then, if still at capacity, evicts the entry with the oldest
reset time before inserting.  The non-empty-key hypothesis is forced by
the JS-truthiness counterexample below. -/
theorem boundedRateLimitStore_bounded (ops : List RLOp) (t0 : Nat)
    (hk : ∀ op ∈ ops, rlOpSetKey op ≠ some "") :
    (ops.foldl applyRLOp (initRLStore t0)).store.length ≤ 10000 := by
  have h := foldRLOps_inv ops (initRLStore t0) (by norm_num [initRLStore])
    ⟨by simp [initRLStore], by simp [initRLStore]⟩ hk
  have := h.1.1
  rw [h.2] at this
  exact this

/-- Witness for C10 (amended): a short sequence stays bounded. -/
theorem boundedRateLimitStore_bounded_witness :
    ([RLOp.set "a" 1 5 0, RLOp.get "a" 1,
      RLOp.triggerCleanup 2].foldl applyRLOp (initRLStore 0)).store.length ≤ 10000 :=
  boundedRateLimitStore_bounded _ 0 (by decide)

theorem findOldestAux_min (k0 : String) (t0 : Nat) (l : List (String × RLEntry))
    (h : ∀ kv ∈ l, ¬(kv.2.resetTime < t0)) :
    findOldestAux (some (k0, t0)) l = some (k0, t0) := by
  induction l with
  | nil => rfl
  | cons kv rest ih =>
    unfold findOldestAux
    rw [if_neg (h kv (List.mem_cons_self _ _))]
    exact ih (fun kv2 hm => h kv2 (List.mem_cons_of_mem _ hm))

/-- Keys used by the overflow construction: `akey m` is `m` copies of
`a`. -/
def akey (m : Nat) : String := String.mk (List.replicate m 'a')

theorem akey_data (m : Nat) : (akey m).data = List.replicate m 'a' := rfl

theorem akey_inj {m m2 : Nat} (h : akey m = akey m2) : m = m2 := by
  have hd := congrArg String.data h
  rw [akey_data, akey_data] at hd
  have hl := congrArg List.length hd
  simpa using hl

theorem akey_ne_empty (m : Nat) : akey (m + 1) ≠ "" := by
  intro h
  have hd := congrArg String.data h
  rw [akey_data] at hd
  have hl := congrArg List.length hd
  simp at hl

theorem akey_ne_fresh (m : Nat) : akey m ≠ "fresh" := by
  intro h
  have hd := congrArg String.data h
  rw [akey_data] at hd
  have hl := congrArg List.length hd
  rw [List.length_replicate] at hl
  have h5 : ("fresh".data).length = 5 := rfl
  rw [h5] at hl
  subst hl
  exact absurd hd (by decide)

/-- The store contents after seeding: the empty-string key holds the
oldest reset time (`1`), followed by `n` distinct one-character-class
keys with reset time `100`. -/
def cexStore (n : Nat) : List (String × RLEntry) :=
  ("", ⟨1, 1⟩) :: (List.range n).map (fun i => (akey (i + 1), ⟨1, 100⟩))

theorem cexStore_length (n : Nat) : (cexStore n).length = n + 1 := by
  simp [cexStore]

theorem cexStore_succ (n : Nat) :
    cexStore n ++ [(akey (n + 1), ⟨1, 100⟩)] = cexStore (n + 1) := by
  simp [cexStore, List.range_succ]

theorem cexStore_fresh_not_mem (n : Nat) :
    ((cexStore n).any (fun kv => kv.1 == "fresh")) = false := by
  rw [List.any_eq_false]
  intro kv hm
  simp only [cexStore, List.mem_cons, List.mem_map] at hm
  rcases hm with h0 | ⟨i, _, hkv⟩
  · rw [h0]
    simp
  · rw [← hkv]
    simpa using akey_ne_fresh (i + 1)

theorem cexStore_akey_not_mem (n : Nat) :
    ((cexStore n).any (fun kv => kv.1 == akey (n + 1))) = false := by
  rw [List.any_eq_false]
  intro kv hm
  simp only [cexStore, List.mem_cons, List.mem_map] at hm
  rcases hm with h0 | ⟨i, hi, hkv⟩
  · rw [h0]
    simpa using (akey_ne_empty n).symm
  · rw [← hkv]
    simp only [beq_iff_eq]
    intro he
    have h1 := akey_inj he
    have h2 := List.mem_range.mp hi
    omega

theorem findOldest_cexStore (n : Nat) : findOldest (cexStore n) = some "" := by
  unfold findOldest cexStore findOldestAux
  rw [findOldestAux_min]
  · rfl
  · intro kv hm
    obtain ⟨i, _, hkv⟩ := List.mem_map.mp hm
    rw [← hkv]
    simp

theorem rlMapSet_append (l : List (String × RLEntry)) (k : String) (v : RLEntry)
    (h : (l.any (fun kv => kv.1 == k)) = false) : rlMapSet l k v = l ++ [(k, v)] := by
  unfold rlMapSet
  rw [h]
  simp

/-- A `set` on a store below capacity is a plain insert. -/
theorem rlSet_below_capacity (k : String) (v : RLEntry) (now : Nat) (s : BoundedRateLimitStore)
    (h : ¬(s.maxEntries ≤ s.store.length)) :
    rlSet k v now s = { s with store := rlMapSet s.store k v } := by
  unfold rlSet rlEvict rlInsert
  rw [if_neg h, if_neg h]

/-- A `set` on a store at capacity whose cleanup is throttled and whose
oldest entry has the empty-string key performs no eviction at all: the JS
`if (oldestKey)` treats `""` as falsy. -/
theorem rlSet_at_capacity_empty_oldest (k : String) (v : RLEntry) (now : Nat)
    (store : List (String × RLEntry)) (m lc : Nat)
    (hcap : m ≤ store.length)
    (hthrottle : now - lc < cleanupInterval)
    (hold : findOldest store = some "") :
    rlSet k v now ⟨store, m, lc⟩ = ⟨rlMapSet store k v, m, lc⟩ := by
  have hs : (⟨store, m, lc⟩ : BoundedRateLimitStore).maxEntries
      ≤ (⟨store, m, lc⟩ : BoundedRateLimitStore).store.length := hcap
  unfold rlSet rlEvict rlInsert
  have hcl : rlCleanup now ⟨store, m, lc⟩ = ⟨store, m, lc⟩ := by
    unfold rlCleanup
    rw [if_pos hthrottle]
  rw [if_pos hs, hcl, if_pos hs, hold]
  simp

theorem cex_prefix : ∀ n, n ≤ 9999 →
    ((RLOp.set "" 1 1 0 :: (List.range n).map (fun i => RLOp.set (akey (i + 1)) 1 100 0)).foldl
        applyRLOp (initRLStore 0))
      = { store := cexStore n, maxEntries := 10000, lastCleanup := 0 } := by
  intro n
  induction n with
  | zero => intro _; rfl
  | succ n ih =>
    intro hn
    have hn9 : n ≤ 9999 := by omega
    rw [List.range_succ, List.map_append, ← List.cons_append, List.foldl_append, ih hn9]
    simp only [List.map_cons, List.map_nil, List.foldl_cons, List.foldl_nil, applyRLOp]
    have hlen : ¬((10000 : Nat) ≤ (cexStore n).length) := by
      rw [cexStore_length]
      omega
    rw [rlSet_below_capacity _ _ _ _ hlen]
    rw [rlMapSet_append _ _ _ (cexStore_akey_not_mem n), cexStore_succ]

/-- Inserting a fresh key into an at-capacity store whose eviction was
skipped exceeds the maximum. -/
theorem rlInsert_overflow (l : List (String × RLEntry))
    (h : (l.any (fun kv => kv.1 == "fresh")) = false) (hlen : l.length = 10000) :
    10000 < ((⟨rlMapSet l "fresh" ⟨1, 100⟩, 10000, 0⟩ : BoundedRateLimitStore)).store.length := by
  show 10000 < (rlMapSet l "fresh" ⟨1, 100⟩).length
  rw [rlMapSet_append _ _ _ h, List.length_append, hlen]
  simp

/-- Counterexample for C10 as stated: starting from the empty store, a
sequence of `set` operations alone drives the entry count to 10001 >
10000.  The seed inserts the key `""` with the oldest reset time; 9999
further distinct keys fill the store to capacity; the next `set` finds the
store at capacity, its cleanup is throttled (same millisecond as
construction), the oldest-entry scan selects the key `""`, and the JS
truthiness test `if (oldestKey)` treats that key as falsy and skips the
eviction, so the insert exceeds the configured maximum. -/
theorem boundedRateLimitStore_bounded_counterexample :
    10000 < ((RLOp.set "" 1 1 0 ::
        ((List.range 9999).map (fun i => RLOp.set (akey (i + 1)) 1 100 0)
          ++ [RLOp.set "fresh" 1 100 0])).foldl applyRLOp (initRLStore 0)).store.length := by
  rewrite [← List.cons_append, List.foldl_append, cex_prefix 9999 (by omega)]
  simp only [List.foldl_cons, List.foldl_nil, applyRLOp]
  rewrite [rlSet_at_capacity_empty_oldest "fresh" ⟨1, 100⟩ 0 (cexStore 9999) 10000 0
    (by rw [cexStore_length])
    (by decide)
    (findOldest_cexStore 9999)]
  exact rlInsert_overflow (cexStore 9999) (cexStore_fresh_not_mem 9999)
    (by rw [cexStore_length])
